import Mathlib

/-!
Verification development for the JamesDBBApi schema-to-model conversion engine
(`src/utils/convert.ts`).  The TypeScript source is shallowly embedded:

* JavaScript objects used as string-keyed dictionaries become association
  lists (`objGet` / `objSet` mirror property read / property assignment,
  first-key-wins like JS objects with unique keys);
* JavaScript truthiness of optional strings / numbers / booleans is made
  explicit (`strTruthy`, `natTruthy`, `boolTruthy`);
* methods that `throw` return a final state together with an
  `Option String` error (mutations performed before the throw survive,
  exactly as on the `this.modelRegistry` instance field in the source);
* the small slice of Sequelize behaviour the engine relies on (model
  definition, association registration) is modelled explicitly: an
  association is registered on the source model under its alias (`as`)
  when present, otherwise under the target table name, which is how the
  auto-association guard in `convert.ts` looks associations up.
-/

set_option maxHeartbeats 1000000
set_option synthInstance.maxSize 1024

namespace DBB

/-- A JSON-ish value, covering the `any`-typed payloads appearing in the
source (`default_value`, `validate` rule values, `scope` values) and the
`sequelize.literal` wrapper produced by the introspector. -/
inductive JValue where
  | bool (b : Bool)
  | num (n : Int)
  | str (s : String)
  | lit (s : String)
  deriving DecidableEq, Repr

/-- Property read on a JS object represented as an association list. -/
def objGet {α : Type} : List (String × α) → String → Option α
  | [], _ => none
  | p :: rest, k => if p.1 = k then some p.2 else objGet rest k

/-- Property assignment on a JS object represented as an association list:
overwrites the (first) binding of the key, appends when absent. -/
def objSet {α : Type} : List (String × α) → String → α → List (String × α)
  | [], k, v => [(k, v)]
  | p :: rest, k, v => if p.1 = k then (k, v) :: rest else p :: objSet rest k v

/-- JS truthiness of an optional string (`undefined` and `""` are falsy). -/
def strTruthy : Option String → Bool
  | some s => s ≠ ""
  | none => false

/-- JS truthiness of an optional number (`undefined` and `0` are falsy). -/
def natTruthy : Option Nat → Bool
  | some n => n ≠ 0
  | none => false

/-- JS truthiness of an optional boolean (`x || false`). -/
def boolTruthy : Option Bool → Bool
  | some b => b
  | none => false

/-- Substring test, the embedding of JavaScript `String.prototype.includes`. -/
def strIncludes (hay sub : String) : Bool :=
  hay.data.tails.any (fun t => sub.data.isPrefixOf t)

/-- `toLowerCase()`: structurally recursive embedding of `String.toLower`
(the core implementation does not reduce inside the kernel). -/
def strToLower (s : String) : String :=
  ⟨s.data.map Char.toLower⟩

/-- `toUpperCase()`: structurally recursive embedding of `String.toUpper`. -/
def strToUpper (s : String) : String :=
  ⟨s.data.map Char.toUpper⟩

/-! ## The data model of `convert.ts` -/

/-- Embedding of the Sequelize `DataTypes` values used by the source,
including the parameterized forms `STRING(n)`, `CHAR(n)`, `DECIMAL(p)`,
`DECIMAL(p, s)` and `ARRAY(t)`. -/
inductive DataType where
  | INTEGER | SMALLINT | BIGINT | FLOAT | DOUBLE | DECIMAL | REAL
  | STRING | CHAR | TEXT
  | DATE | DATEONLY | TIME
  | BOOLEAN
  | BLOB
  | JSON | JSONB
  | UUID
  | ENUM
  | ARRAY
  | GEOMETRY | GEOGRAPHY
  | STRINGn (n : Nat)
  | CHARn (n : Nat)
  | DECIMALp (p : Nat)
  | DECIMALps (p : Nat) (s : Nat)
  | ARRAYof (elem : DataType)
  deriving DecidableEq, Repr

/-- `Column.foreign_key` payload (declared in the source interface; the
conversion functions never read it, it is carried for fidelity). -/
structure ForeignKeySpec where
  table : String
  column : String
  on_delete : Option String := none
  on_update : Option String := none
  deriving DecidableEq, Repr

/-- The `Column` interface of `convert.ts`. -/
structure Column where
  name : String
  type : String
  primary_key : Option Bool := none
  nullable : Option Bool := none
  default_value : Option JValue := none
  unique : Option Bool := none
  auto_increment : Option Bool := none
  length : Option Nat := none
  precision : Option Nat := none
  scale : Option Nat := none
  foreign_key : Option ForeignKeySpec := none
  index : Option Bool := none
  comment : Option String := none
  validate : Option (List (String × JValue)) := none
  deriving DecidableEq, Repr

/-- The `TableRelation` interface.  The `type` field is a plain string at
runtime (JSON input is not checked against the TS union type), so it is
embedded as `String`.  The TS field `as` is spelled `as_`. -/
structure TableRelation where
  type : String
  target : String
  foreignKey : Option String := none
  targetKey : Option String := none
  through : Option String := none
  as_ : Option String := none
  onDelete : Option String := none
  onUpdate : Option String := none
  constraints : Option Bool := none
  scope : Option (List (String × JValue)) := none
  deriving DecidableEq, Repr

/-- An explicit index declaration of a `TableSchema`. -/
structure IndexSpec where
  name : String
  columns : List String
  unique : Option Bool := none
  type : Option String := none
  deriving DecidableEq, Repr

/-- A table-level constraint declaration (carried for fidelity; the
conversion functions never read it). -/
structure ConstraintSpec where
  name : String
  type : String
  columns : List String
  deriving DecidableEq, Repr

/-- The `TableSchema` interface. -/
structure TableSchema where
  table_name : String
  columns : List Column
  relations : Option (List TableRelation) := none
  indexes : Option (List IndexSpec) := none
  constraints : Option (List ConstraintSpec) := none
  deriving DecidableEq, Repr

/-- The `ConversionOptions` interface; absent boolean options behave as
`false` under JS truthiness except `freezeTableName`, which the source
compares against `false` explicitly (`!== false`). -/
structure ConversionOptions where
  strictValidation : Bool := false
  addTimestamps : Bool := false
  paranoid : Bool := false
  underscored : Bool := false
  freezeTableName : Option Bool := none
  autoAssociate : Bool := false
  deriving DecidableEq, Repr

/-! ## Type Mapper (`typeMapping`, `getSequelizeType`) -/

/-- The fixed `typeMapping` table of `SchemaConverter`. -/
def typeMapping : String → Option DataType
  | "integer" => some .INTEGER
  | "int" => some .INTEGER
  | "smallint" => some .SMALLINT
  | "bigint" => some .BIGINT
  | "float" => some .FLOAT
  | "double" => some .DOUBLE
  | "decimal" => some .DECIMAL
  | "numeric" => some .DECIMAL
  | "real" => some .REAL
  | "string" => some .STRING
  | "varchar" => some .STRING
  | "char" => some .CHAR
  | "text" => some .TEXT
  | "mediumtext" => some .TEXT
  | "longtext" => some .TEXT
  | "tinytext" => some (.STRINGn 255)
  | "timestamp" => some .DATE
  | "datetime" => some .DATE
  | "date" => some .DATEONLY
  | "time" => some .TIME
  | "boolean" => some .BOOLEAN
  | "bool" => some .BOOLEAN
  | "tinyint" => some .BOOLEAN
  | "blob" => some .BLOB
  | "binary" => some .BLOB
  | "varbinary" => some .BLOB
  | "json" => some .JSON
  | "jsonb" => some .JSONB
  | "uuid" => some .UUID
  | "enum" => some .ENUM
  | "array" => some .ARRAY
  | "geometry" => some .GEOMETRY
  | "geography" => some .GEOGRAPHY
  | _ => none

/-- Parameterizing a string-like base type with a length
(`baseType(column.length)` in the source). -/
def withLength : DataType → Nat → DataType
  | .STRING, n => .STRINGn n
  | .CHAR, n => .CHARn n
  | t, _ => t

/-- The length / precision / scale refinement performed at the end of
`getSequelizeType` (note the JS truthiness of `column.length` and
`column.precision`, and the `!== undefined` test on `column.scale`). -/
def applyParams (baseType : DataType) (c : Column) : DataType :=
  if natTruthy c.length ∧ (baseType = .STRING ∨ baseType = .CHAR) then
    withLength baseType (c.length.getD 0)
  else if natTruthy c.precision ∧ c.scale.isSome ∧ baseType = .DECIMAL then
    .DECIMALps (c.precision.getD 0) (c.scale.getD 0)
  else if natTruthy c.precision ∧ c.scale.isNone ∧ baseType = .DECIMAL then
    .DECIMALp (c.precision.getD 0)
  else baseType

/-- `SchemaConverter.getSequelizeType`: a miss in the mapping table throws
in strict mode and falls back to `STRING` otherwise. -/
def getSequelizeType (opts : ConversionOptions) (c : Column) : Except String DataType :=
  match typeMapping (strToLower c.type) with
  | some baseType => .ok (applyParams baseType c)
  | none =>
    if opts.strictValidation then
      .error ("Unsupported column type: " ++ c.type)
    else
      .ok (applyParams .STRING c)

/-! ## Column Builder (`buildColumnDefinition`) -/

/-- The `ModelAttributeColumnOptions` object built by
`buildColumnDefinition` (only the properties the source sets). -/
structure ColumnDefinition where
  type : DataType
  primaryKey : Bool
  allowNull : Bool
  unique : Bool
  autoIncrement : Bool
  defaultValue : Option JValue := none
  comment : Option String := none
  validate : List (String × JValue) := []
  deriving DecidableEq, Repr

/-- `SchemaConverter.buildColumnDefinition`.  The `validate` object is the
explicit `column.validate` map (or a fresh empty object); for the semantic
types `email` / `url` / `ip` the source then assigns
`definition.validate.isEmail = true` (resp. `isUrl`, `isIP`) and forces the
concrete type to `STRING` — the assignment overwrites any explicit binding
of the same key. -/
def buildColumnDefinition (opts : ConversionOptions) (c : Column) :
    Except String ColumnDefinition :=
  match getSequelizeType opts c with
  | .error e => .error e
  | .ok t =>
    let d0 : ColumnDefinition :=
      { type := t
        primaryKey := boolTruthy c.primary_key
        allowNull := c.nullable ≠ some false
        unique := boolTruthy c.unique
        autoIncrement := boolTruthy c.auto_increment }
    let d1 := match c.default_value with
      | some v => { d0 with defaultValue := some v }
      | none => d0
    let d2 := match c.comment with
      | some cm => if cm = "" then d1 else { d1 with comment := some cm }
      | none => d1
    let d3 := { d2 with validate := c.validate.getD [] }
    if strToLower c.type = "email" then
      .ok { d3 with validate := objSet d3.validate "isEmail" (.bool true), type := .STRING }
    else if strToLower c.type = "url" then
      .ok { d3 with validate := objSet d3.validate "isUrl" (.bool true), type := .STRING }
    else if strToLower c.type = "ip" then
      .ok { d3 with validate := objSet d3.validate "isIP" (.bool true), type := .STRING }
    else
      .ok d3

/-! ## Table Model Builder (`convertToSequelize`) -/

/-- One entry of the `indexes` array of the model options. -/
structure IndexOption where
  name : Option String := none
  fields : List String
  unique : Bool := false
  type : Option String := none
  deriving DecidableEq, Repr

/-- The model options composed by `convertToSequelize`. -/
structure ModelOptions where
  tableName : String
  timestamps : Bool
  paranoid : Bool
  underscored : Bool
  freezeTableName : Bool
  indexes : List IndexOption
  deriving DecidableEq, Repr

/-- A Sequelize association, as attached by `createRelations` /
`autoAssociateFromForeignKeys`: the relation kind together with the options
object passed to the Sequelize association method. -/
structure Association where
  kind : String
  target : String
  foreignKey : Option String := none
  targetKey : Option String := none
  sourceKey : Option String := none
  onDelete : Option String := none
  onUpdate : Option String := none
  constraints : Option Bool := none
  through : Option String := none
  scope : Option (List (String × JValue)) := none
  deriving DecidableEq, Repr

/-- The slice of a Sequelize model the engine observes: its name,
attribute map, options and `associations` map.  Associations are keyed the
way `convert.ts` relies on: by the explicit alias when one is passed,
otherwise by the target table name (the key the idempotence guard of
`autoAssociateFromForeignKeys` reads). -/
structure Model where
  name : String
  attributes : List (String × ColumnDefinition)
  options : ModelOptions
  associations : List (String × Association) := []
  deriving DecidableEq, Repr

/-- `ModelRegistry`: table name to model. -/
def ModelRegistry : Type := List (String × Model)

instance : DecidableEq ModelRegistry := by
  unfold ModelRegistry
  infer_instance

/-- The attribute map built by the first loop of `convertToSequelize`
(`attributes[column.name] = this.buildColumnDefinition(column)`). -/
def buildAttributes (opts : ConversionOptions) :
    List Column → List (String × ColumnDefinition) →
    Except String (List (String × ColumnDefinition))
  | [], acc => .ok acc
  | c :: rest, acc =>
    match buildColumnDefinition opts c with
    | .error e => .error e
    | .ok d => buildAttributes opts rest (objSet acc c.name d)

/-- The explicit `schema.indexes` mapping of `convertToSequelize`. -/
def explicitIndexes (schema : TableSchema) : List IndexOption :=
  match schema.indexes with
  | some idxs =>
    idxs.map (fun ix =>
      { name := some ix.name
        fields := ix.columns
        unique := boolTruthy ix.unique
        type := ix.type })
  | none => []

/-- The column-level indexes pushed by `convertToSequelize` for columns
flagged `index: true` that are neither primary keys nor unique. -/
def columnIndexes (schema : TableSchema) : List IndexOption :=
  (schema.columns.filter (fun c =>
    boolTruthy c.index ∧ ¬ boolTruthy c.primary_key ∧ ¬ boolTruthy c.unique)).map
    (fun c => { fields := [c.name] })

/-- `SchemaConverter.convertToSequelize` (the `sequelize.define` call is
modelled as constructing the model value). -/
def convertToSequelize (opts : ConversionOptions) (schema : TableSchema) :
    Except String Model :=
  match buildAttributes opts schema.columns [] with
  | .error e => .error e
  | .ok attrs =>
    .ok { name := schema.table_name
          attributes := attrs
          options :=
            { tableName := schema.table_name
              timestamps := opts.addTimestamps
              paranoid := opts.paranoid
              underscored := opts.underscored
              freezeTableName := opts.freezeTableName ≠ some false
              indexes := explicitIndexes schema ++ columnIndexes schema }
          associations := [] }

/-! ## Relation Graph Builder (`establishRelations`, `createRelations`) -/

/-- The key a Sequelize association is registered under on the source
model: the `as` alias when given, otherwise the target table name. -/
def assocName (rel : TableRelation) : String :=
  rel.as_.getD rel.target

/-- The `associationOptions` object built inside `createRelations`. -/
def mkAssociation (rel : TableRelation) (kind : String) (through : Option String) :
    Association :=
  { kind := kind
    target := rel.target
    foreignKey := rel.foreignKey
    targetKey := rel.targetKey
    onDelete := some (rel.onDelete.getD "SET NULL")
    onUpdate := some (rel.onUpdate.getD "CASCADE")
    constraints := some (rel.constraints ≠ some false)
    through := through
    scope := rel.scope }

/-- Register an association on the model stored under `src` (a no-op when
no such model exists, which never happens on the paths the source takes). -/
def regAttach (reg : ModelRegistry) (src : String) (n : String) (a : Association) :
    ModelRegistry :=
  match objGet reg src with
  | none => reg
  | some m => objSet reg src { m with associations := objSet m.associations n a }

/-- The body of the `schema.relations?.forEach` loop of `createRelations`
for a single relation: resolve the target model, then dispatch on the
relation `type` string (the four known kinds; `belongsToMany` additionally
demands a truthy `through`; anything else hits the `default` case). -/
def processRelation (opts : ConversionOptions) (reg : ModelRegistry)
    (src : String) (rel : TableRelation) : ModelRegistry × Option String :=
  match objGet reg rel.target with
  | none =>
    if opts.strictValidation then
      (reg, some ("Target model " ++ rel.target ++ " not found in registry"))
    else
      (reg, none)
  | some _ =>
    if rel.type = "hasOne" then
      (regAttach reg src (assocName rel) (mkAssociation rel "hasOne" none), none)
    else if rel.type = "hasMany" then
      (regAttach reg src (assocName rel) (mkAssociation rel "hasMany" none), none)
    else if rel.type = "belongsTo" then
      (regAttach reg src (assocName rel) (mkAssociation rel "belongsTo" none), none)
    else if rel.type = "belongsToMany" then
      if strTruthy rel.through then
        (regAttach reg src (assocName rel) (mkAssociation rel "belongsToMany" rel.through), none)
      else
        (reg, some ("belongsToMany relation requires through table for " ++
          src ++ " -> " ++ rel.target))
    else if opts.strictValidation then
      (reg, some ("Unknown relation type: " ++ rel.type))
    else
      (reg, none)

/-- The `forEach` over a schema's relations: a throw aborts the loop but
keeps the registry mutations already performed. -/
def processRelations (opts : ConversionOptions) (reg : ModelRegistry)
    (src : String) : List TableRelation → ModelRegistry × Option String
  | [] => (reg, none)
  | rel :: rest =>
    match processRelation opts reg src rel with
    | (reg1, some e) => (reg1, some e)
    | (reg1, none) => processRelations opts reg1 src rest

/-- The relation list a schema carries (`schema.relations` with the
`undefined` case). -/
def relsOf (schema : TableSchema) : List TableRelation :=
  schema.relations.getD []

/-- `SchemaConverter.createRelations`. -/
def createRelations (opts : ConversionOptions) (reg : ModelRegistry)
    (schema : TableSchema) : ModelRegistry × Option String :=
  match objGet reg schema.table_name with
  | none => (reg, some ("Source model " ++ schema.table_name ++ " not found in registry"))
  | some _ => processRelations opts reg schema.table_name (relsOf schema)

/-- Phase 1 of `establishRelations`: register every schema's model
(`convertToSequelizeWithRelations`); a throw (strict-mode unsupported
column type) aborts the loop but keeps prior registrations. -/
def registerModels (opts : ConversionOptions) (reg : ModelRegistry) :
    List TableSchema → ModelRegistry × Option String
  | [] => (reg, none)
  | s :: rest =>
    match convertToSequelize opts s with
    | .error e => (reg, some e)
    | .ok m => registerModels opts (objSet reg s.table_name m) rest

/-- Phase 2 of `establishRelations`: `createRelations` for every schema
with a non-empty relation list. -/
def relatePhase (opts : ConversionOptions) (reg : ModelRegistry) :
    List TableSchema → ModelRegistry × Option String
  | [] => (reg, none)
  | s :: rest =>
    if (relsOf s).isEmpty then
      relatePhase opts reg rest
    else
      match createRelations opts reg s with
      | (reg1, some e) => (reg1, some e)
      | (reg1, none) => relatePhase opts reg1 rest

/-- `SchemaConverter.establishRelations` on an instance whose
`modelRegistry` currently holds `reg0`: the final registry (the state of
`this.modelRegistry`, even when an error was thrown) together with the
error, if any. -/
def establishRelations (opts : ConversionOptions) (reg0 : ModelRegistry)
    (schemas : List TableSchema) : ModelRegistry × Option String :=
  match registerModels opts reg0 schemas with
  | (reg1, some e) => (reg1, some e)
  | (reg1, none) => relatePhase opts reg1 schemas

/-! ## Relation Validator (`validateRelations`)

The error message strings follow the source templates, with the
single-quote characters around interpolated names elided. -/

/-- The `findColumn` helper of `validateRelations`
(`schema?.columns.find(col => col.name === colName)`). -/
def findColumn (schema : Option TableSchema) (colName : String) : Option Column :=
  match schema with
  | none => none
  | some s => s.columns.find? (fun col => col.name = colName)

/-- Look a table up in the batch
(`schemas.find(s => s.table_name === name)`). -/
def findTable (schemas : List TableSchema) (n : String) : Option TableSchema :=
  schemas.find? (fun s => s.table_name = n)

/-- Check 2 of `validateRelations`: the `belongsToMany` junction-table
checks (only for `belongsToMany` relations). -/
def throughErrors (schemas : List TableSchema) (schema : TableSchema)
    (rel : TableRelation) : List String :=
  if rel.type = "belongsToMany" then
    if ¬ strTruthy rel.through then
      [schema.table_name ++ ": belongsToMany relation to " ++ rel.target ++
        " requires through property"]
    else
      match findTable schemas (rel.through.getD "") with
      | none =>
        [schema.table_name ++ ": belongsToMany relation to " ++ rel.target ++
          " references missing through table " ++ rel.through.getD ""]
      | some throughSchema =>
        (if strTruthy rel.foreignKey ∧
            (findColumn (some throughSchema) (rel.foreignKey.getD "")).isNone then
          [schema.table_name ++ ": belongsToMany relation: foreignKey " ++
            rel.foreignKey.getD "" ++ " not found in through table " ++ rel.through.getD ""]
        else []) ++
        (if strTruthy rel.targetKey ∧
            (findColumn (some throughSchema) (rel.targetKey.getD "")).isNone then
          [schema.table_name ++ ": belongsToMany relation: targetKey " ++
            rel.targetKey.getD "" ++ " not found in through table " ++ rel.through.getD ""]
        else [])
  else []

/-- The schema the foreign key must exist on, per relation type (checks 3
and 5 of `validateRelations` share this dispatch, except that check 3 has
no `belongsToMany` branch). -/
def fkSchemaFor (schema targetSchema : TableSchema) (rel : TableRelation) :
    Option TableSchema :=
  if rel.type = "belongsTo" then some schema
  else if rel.type = "hasOne" ∨ rel.type = "hasMany" then some targetSchema
  else none

/-- Check 3 of `validateRelations`: foreign-key existence on the correct
side. -/
def fkErrors (schema targetSchema : TableSchema) (rel : TableRelation) : List String :=
  if strTruthy rel.foreignKey then
    match fkSchemaFor schema targetSchema rel with
    | some fs =>
      if (findColumn (some fs) (rel.foreignKey.getD "")).isNone then
        [schema.table_name ++ ": Foreign key " ++ rel.foreignKey.getD "" ++
          " not found in " ++ fs.table_name]
      else []
    | none => []
  else []

/-- Check 4 of `validateRelations`: target-key existence on the target
table. -/
def targetKeyErrors (schema targetSchema : TableSchema) (rel : TableRelation) :
    List String :=
  if strTruthy rel.targetKey then
    if (findColumn (some targetSchema) (rel.targetKey.getD "")).isNone then
      [schema.table_name ++ ": Target key " ++ rel.targetKey.getD "" ++
        " not found in " ++ rel.target]
    else []
  else []

/-- Check 5 of `validateRelations`: logical-type compatibility of the
foreign-key column and the target-key column. -/
def typeMatchErrors (schemas : List TableSchema) (schema targetSchema : TableSchema)
    (rel : TableRelation) : List String :=
  if strTruthy rel.foreignKey ∧ strTruthy rel.targetKey then
    let fkSchema : Option TableSchema :=
      if rel.type = "belongsTo" then some schema
      else if rel.type = "hasOne" ∨ rel.type = "hasMany" then some targetSchema
      else if rel.type = "belongsToMany" ∧ strTruthy rel.through then
        findTable schemas (rel.through.getD "")
      else none
    match findColumn fkSchema (rel.foreignKey.getD ""),
          findColumn (some targetSchema) (rel.targetKey.getD "") with
    | some fkCol, some targetCol =>
      if fkCol.type ≠ targetCol.type then
        [schema.table_name ++ ": Type mismatch between foreignKey " ++
          rel.foreignKey.getD "" ++ " (" ++ fkCol.type ++ ") and targetKey " ++
          rel.targetKey.getD "" ++ " (" ++ targetCol.type ++ ") in relation to " ++
          rel.target]
      else []
    | _, _ => []
  else []

/-- The errors one relation contributes: check 1 (missing target) aborts
the remaining checks for that relation (the `return` in the source
callback); otherwise checks 2 to 5 each push their findings. -/
def relationErrors (schemas : List TableSchema) (schema : TableSchema)
    (index : Nat) (rel : TableRelation) : List String :=
  match findTable schemas rel.target with
  | none =>
    [schema.table_name ++ ": Relation " ++ toString index ++
      " references non-existent table " ++ rel.target]
  | some targetSchema =>
    throughErrors schemas schema rel ++
    fkErrors schema targetSchema rel ++
    targetKeyErrors schema targetSchema rel ++
    typeMatchErrors schemas schema targetSchema rel

/-- Concatenation of a list of lists (the shared `errors` array the nested
`forEach` loops push into). -/
def listJoin {α : Type} : List (List α) → List α
  | [] => []
  | l :: ls => l ++ listJoin ls

/-- Pair every element with its index, like `forEach((x, i) => ...)`. -/
def withIdx {α : Type} : List α → Nat → List (Nat × α)
  | [], _ => []
  | a :: rest, i => (i, a) :: withIdx rest (i + 1)

/-- `SchemaConverter.validateRelations`:
`valid = errors.length === 0`, errors accumulated over every relation of
every schema. -/
def validateRelations (schemas : List TableSchema) : Bool × List String :=
  let errors := listJoin (schemas.map (fun s =>
    listJoin ((withIdx (relsOf s) 0).map (fun p =>
      relationErrors schemas s p.1 p.2))))
  (errors.isEmpty, errors)

/-! ## Live-Schema Introspector
(`generateModelsFromDatabase`, `autoAssociateFromForeignKeys`) -/

/-- One column of a `describeTable` result. -/
structure DBColumnDesc where
  type : String
  allowNull : Bool
  primaryKey : Bool
  defaultValue : Option JValue := none
  deriving DecidableEq, Repr

/-- One row of `getForeignKeyReferencesForTable`. -/
structure ForeignKeyRef where
  columnName : String
  referencedTableName : String
  referencedColumnName : String
  deriving DecidableEq, Repr

/-- The live database as the query interface exposes it: the table list
with each table's described columns, and per-table foreign-key metadata
(`none` models a dialect whose foreign-key introspection throws). -/
structure Database where
  tables : List (String × List (String × DBColumnDesc))
  foreignKeys : List (String × Option (List ForeignKeyRef)) := []
  deriving DecidableEq, Repr

/-- A connected Sequelize instance: the database behind it and its
`sequelize.models` map. -/
structure SequelizeInst where
  db : Database
  models : List (String × Model) := []
  deriving DecidableEq, Repr

/-- `getForeignKeyReferencesForTable`, post-normalization: `none` when the
dialect throws (the `catch { continue; }` path). -/
def getFks (db : Database) (t : String) : Option (List ForeignKeyRef) :=
  (objGet db.foreignKeys t).getD none

/-- The substring-matching SQL-type mapper of `generateModelsFromDatabase`
(input is the lowercased native type string). -/
def sqlTypeToDataType (sqlType : String) : DataType :=
  if strIncludes sqlType "bigint" then .BIGINT
  else if strIncludes sqlType "smallint" then .SMALLINT
  else if strIncludes sqlType "int" then .INTEGER
  else if strIncludes sqlType "float" then .FLOAT
  else if strIncludes sqlType "double" then .DOUBLE
  else if strIncludes sqlType "decimal" ∨ strIncludes sqlType "numeric" then .DECIMAL
  else if strIncludes sqlType "real" then .REAL
  else if strIncludes sqlType "char" then .CHAR
  else if strIncludes sqlType "varchar" then .STRING
  else if strIncludes sqlType "text" ∨ strIncludes sqlType "mediumtext" ∨
    strIncludes sqlType "longtext" then .TEXT
  else if strIncludes sqlType "tinytext" then .STRINGn 255
  else if strIncludes sqlType "timestamp" ∨ strIncludes sqlType "datetime" then .DATE
  else if sqlType = "date" then .DATEONLY
  else if sqlType = "time" then .TIME
  else if strIncludes sqlType "bool" ∨ sqlType = "tinyint(1)" then .BOOLEAN
  else if strIncludes sqlType "jsonb" then .JSONB
  else if strIncludes sqlType "json" then .JSON
  else if strIncludes sqlType "uuid" then .UUID
  else if strIncludes sqlType "enum" then .STRING
  else if strIncludes sqlType "array" then .ARRAYof .STRING
  else if strIncludes sqlType "geometry" then .GEOMETRY
  else if strIncludes sqlType "geography" then .GEOGRAPHY
  else if strIncludes sqlType "blob" ∨ strIncludes sqlType "binary" ∨
    strIncludes sqlType "varbinary" then .BLOB
  else .STRING

/-- `toString().toLowerCase()` on a default value. -/
def jvToLowerString : JValue → String
  | .bool b => if b then "true" else "false"
  | .num n => strToLower (toString n)
  | .str s => strToLower s
  | .lit s => strToLower s

/-- JS truthiness of a default value. -/
def jvTruthy : Option JValue → Bool
  | some (.bool b) => b
  | some (.num n) => n ≠ 0
  | some (.str s) => s ≠ ""
  | some (.lit _) => true
  | none => false

/-- The `autoIncrement` detection of `generateModelsFromDatabase`. -/
def detectAutoIncrement (sqlType : String) (dv : Option JValue) : Bool :=
  (strIncludes sqlType "int" ∨ strIncludes sqlType "serial") ∧
  jvTruthy dv ∧
  (strIncludes (jvToLowerString (dv.getD (.str ""))) "auto_increment" ∨
   strIncludes (jvToLowerString (dv.getD (.str ""))) "nextval")

/-- The `CURRENT_TIMESTAMP` default-value rewrite of
`generateModelsFromDatabase` (a textual default mentioning
`CURRENT_TIMESTAMP` becomes a SQL literal). -/
def rewriteDefault (dv : Option JValue) : Option JValue :=
  match dv with
  | some (.str s) =>
    if strIncludes (strToUpper s) "CURRENT_TIMESTAMP" then some (.lit "CURRENT_TIMESTAMP")
    else some (.str s)
  | other => other

/-- One introspected attribute. -/
def introspectAttribute (d : DBColumnDesc) : ColumnDefinition :=
  let sqlType := strToLower d.type
  { type := sqlTypeToDataType sqlType
    primaryKey := d.primaryKey
    allowNull := d.allowNull
    unique := false
    autoIncrement := detectAutoIncrement sqlType d.defaultValue
    defaultValue := rewriteDefault d.defaultValue }

/-- The model `generateModelsFromDatabase` defines for one table. -/
def introspectModel (t : String) (cols : List (String × DBColumnDesc)) : Model :=
  { name := t
    attributes := cols.foldl (fun acc p => objSet acc p.1 (introspectAttribute p.2)) []
    options :=
      { tableName := t
        timestamps := false
        paranoid := false
        underscored := false
        freezeTableName := true
        indexes := [] }
    associations := [] }

/-- The table loop of `generateModelsFromDatabase`: tables already in
`sequelize.models` are reused, the rest are defined (which also records
them in `sequelize.models`). -/
def genModelsGo : List (String × List (String × DBColumnDesc)) → SequelizeInst →
    ModelRegistry → ModelRegistry × SequelizeInst
  | [], sq, reg => (reg, sq)
  | (t, cols) :: rest, sq, reg =>
    match objGet sq.models t with
    | some m => genModelsGo rest sq (objSet reg t m)
    | none =>
      let m := introspectModel t cols
      genModelsGo rest { sq with models := objSet sq.models t m } (objSet reg t m)

/-- `generateModelsFromDatabase`. -/
def generateModelsFromDatabase (sq : SequelizeInst) : ModelRegistry × SequelizeInst :=
  genModelsGo sq.db.tables sq []

/-- The `hasMany` half of the foreign-key loop body of
`autoAssociateFromForeignKeys`: attach a `hasMany` on the referenced
table's model, keyed by the source table name, unless an association
under that key already exists.  (The target model is re-read so that a
self-referencing foreign key observes the `belongsTo` just attached, as
the shared JS object reference does in the source.) -/
def applyFkHasMany (reg1 : ModelRegistry) (tableName : String)
    (fk : ForeignKeyRef) : ModelRegistry :=
  match objGet reg1 fk.referencedTableName with
  | some tgt1 =>
    if (objGet tgt1.associations tableName).isSome then reg1
    else regAttach reg1 fk.referencedTableName tableName
      { kind := "hasMany"
        target := tableName
        foreignKey := some fk.columnName
        sourceKey := some fk.referencedColumnName }
  | none => reg1

/-- The body of the foreign-key loop of `autoAssociateFromForeignKeys`:
a `belongsTo` on the source keyed by the referenced table name, then a
`hasMany` on the target keyed by the source table name, each guarded by
the absence of an association under that key. -/
def applyFk (reg : ModelRegistry) (tableName : String) (fk : ForeignKeyRef) :
    ModelRegistry :=
  match objGet reg tableName, objGet reg fk.referencedTableName with
  | some src, some _ =>
    applyFkHasMany
      (if (objGet src.associations fk.referencedTableName).isSome then reg
       else regAttach reg tableName fk.referencedTableName
        { kind := "belongsTo"
          target := fk.referencedTableName
          foreignKey := some fk.columnName
          targetKey := some fk.referencedColumnName })
      tableName fk
  | _, _ => reg

/-- The per-table foreign-key loop. -/
def applyFks (reg : ModelRegistry) (tableName : String) :
    List ForeignKeyRef → ModelRegistry
  | [] => reg
  | fk :: rest => applyFks (applyFk reg tableName fk) tableName rest

/-- One table of `autoAssociateFromForeignKeys` (a dialect whose
foreign-key introspection throws is skipped). -/
def autoAssocTable (db : Database) (reg : ModelRegistry) (t : String) : ModelRegistry :=
  match getFks db t with
  | none => reg
  | some fks => applyFks reg t fks

/-- The table loop of `autoAssociateFromForeignKeys`. -/
def autoAssocTables (db : Database) : ModelRegistry → List String → ModelRegistry
  | reg, [] => reg
  | reg, t :: rest => autoAssocTables db (autoAssocTable db reg t) rest

/-- `autoAssociateFromForeignKeys`. -/
def autoAssociateFromForeignKeys (db : Database) (reg : ModelRegistry) : ModelRegistry :=
  autoAssocTables db reg (db.tables.map Prod.fst)

/-! ## Derived notions used by the claims -/

/-- The four relation kinds the `switch` of `createRelations` handles. -/
def knownRelationTypes : List String :=
  ["hasOne", "hasMany", "belongsTo", "belongsToMany"]

/-- A relation the attachment `switch` completes without throwing:
a known kind, with a truthy `through` when `belongsToMany`. -/
def relKindOk (rel : TableRelation) : Bool :=
  rel.type = "hasOne" ∨ rel.type = "hasMany" ∨ rel.type = "belongsTo" ∨
    (rel.type = "belongsToMany" ∧ strTruthy rel.through)

/-- A column whose type resolves in `getSequelizeType` under the given
options (always, in lenient mode). -/
def columnTypeResolves (opts : ConversionOptions) (c : Column) : Bool :=
  !opts.strictValidation || (typeMapping (strToLower c.type)).isSome

/-- The registry model under `src` carries an association under key `n`. -/
def hasAssoc (reg : ModelRegistry) (src n : String) : Bool :=
  match objGet reg src with
  | some m => (objGet m.associations n).isSome
  | none => false


/-! ## Concrete inputs used by witnesses and counterexamples -/

/-- An `integer` column. -/
def intCol (n : String) : Column := { name := n, type := "integer" }

/-- A one-table batch whose single column has the semantic type `email`,
which is absent from `typeMapping`. -/
def emailOnlySchemas : List TableSchema :=
  [ { table_name := "t", columns := [ { name := "e", type := "email" } ] } ]

/-- A two-table batch with a forward reference (`posts` relates to `users`
declared later) and a self-reference (`posts` to `posts`). -/
def forwardRefSchemas : List TableSchema :=
  [ { table_name := "posts"
      columns := [intCol "id", intCol "user_id", intCol "parent_id"]
      relations := some [
        { type := "belongsTo", target := "users", foreignKey := some "user_id",
          as_ := some "author" },
        { type := "belongsTo", target := "posts", foreignKey := some "parent_id",
          as_ := some "parent" } ] },
    { table_name := "users"
      columns := [intCol "id"]
      relations := some [
        { type := "hasMany", target := "posts", foreignKey := some "user_id",
          as_ := some "posts" } ] } ]


/-- An `email` column carrying an explicit `validate` map that itself
binds `isEmail` (to `false`). -/
def emailExplicitCol : Column :=
  { name := "e", type := "email"
    validate := some [("min", .num 3), ("isEmail", .bool false)] }

/-- The key of the type-implied format rule for a semantic type. -/
def impliedValidateKey (t : String) : String :=
  if t = "email" then "isEmail" else if t = "url" then "isUrl" else "isIP"

/-- The end-to-end `users` schema of the spec (also the first table of the
source's `generateRelationExample`). -/
def usersSchema : TableSchema :=
  { table_name := "users"
    columns := [
      { name := "id", type := "integer", primary_key := some true,
        auto_increment := some true },
      { name := "email", type := "email", unique := some true,
        nullable := some false } ] }


/-- A one-table batch with two invalid relations (missing target;
`belongsToMany` without `through`). -/
def invalidPairSchemas : List TableSchema :=
  [ { table_name := "a", columns := [intCol "id"]
      relations := some [
        { type := "hasMany", target := "missing1" },
        { type := "belongsToMany", target := "a" } ] } ]


/-- A batch whose sole relation is a `belongsToMany` with no `through`
and a target table that is not in the batch. -/
def btmMissingTargetSchemas : List TableSchema :=
  [ { table_name := "a", columns := [intCol "x"]
      relations := some [ { type := "belongsToMany", target := "missing" } ] } ]

/-- A batch whose sole relation is a self-`belongsToMany` with no
`through` (so its target resolves). -/
def btmNoThroughSchemas : List TableSchema :=
  [ { table_name := "a", columns := [intCol "id"]
      relations := some [ { type := "belongsToMany", target := "a" } ] } ]


/-- Strict-mode options. -/
def strictOpts : ConversionOptions := { strictValidation := true }

/-- A bare registry model named `a`. -/
def aModel : Model :=
  { name := "a", attributes := [],
    options :=
      { tableName := "a", timestamps := false, paranoid := false,
        underscored := false, freezeTableName := true, indexes := [] } }

/-- A registry holding only the model `a`. -/
def aReg : ModelRegistry := [("a", aModel)]

/-- A relation whose type string is outside the four known kinds, aimed at
the registered table `a`. -/
def relUnknownType : TableRelation := { type := "weird", target := "a" }

/-- A known-kind relation aimed at a table absent from the registry. -/
def relMissingTarget : TableRelation := { type := "hasMany", target := "zzz" }

/-- An unknown-kind relation whose target and target key exist. -/
def weirdRel : TableRelation :=
  { type := "weird", target := "a", targetKey := some "id" }

/-- A batch containing only `weirdRel` on table `a`. -/
def unknownTypeSchema : TableSchema :=
  { table_name := "a", columns := [intCol "id"], relations := some [weirdRel] }

/-- The singleton batch of `unknownTypeSchema`. -/
def unknownTypeSchemas : List TableSchema := [unknownTypeSchema]

/-! ## Association-list lemmas -/

theorem objGet_objSet {α : Type} (l : List (String × α)) (k : String) (v : α)
    (k2 : String) :
    objGet (objSet l k v) k2 = if k = k2 then some v else objGet l k2 := by
  induction l with
  | nil =>
    by_cases h : k = k2 <;> simp [objSet, objGet, h]
  | cons p rest ih =>
    by_cases hp : p.1 = k
    · by_cases h : k = k2
      · simp [objSet, objGet, hp, h]
      · have hp2 : p.1 ≠ k2 := by rw [hp]; exact h
        simp [objSet, objGet, hp, h, hp2]
    · by_cases h2 : p.1 = k2
      · have hne : ¬ k = k2 := by intro e; exact hp (h2.trans e.symm)
        have hne2 : ¬ k2 = k := fun e => hne e.symm
        simp [objSet, objGet, hp, h2, hne, hne2]
      · simp [objSet, objGet, hp, h2, ih]

theorem objGet_objSet_isSome {α : Type} (l : List (String × α)) (k : String)
    (v : α) (k2 : String) (h : (objGet l k).isSome = true) :
    (objGet (objSet l k v) k2).isSome = (objGet l k2).isSome := by
  rw [objGet_objSet]
  by_cases hk : k = k2
  · subst hk; simp [h]
  · simp [hk]

theorem objGet_objSet_isSome_mono {α : Type} (l : List (String × α)) (k : String)
    (v : α) (k2 : String) (h : (objGet l k2).isSome = true) :
    (objGet (objSet l k v) k2).isSome = true := by
  rw [objGet_objSet]
  by_cases hk : k = k2 <;> simp [hk, h]

/-! ## Registry attachment lemmas -/

theorem regAttach_presence (reg : ModelRegistry) (src n : String) (a : Association)
    (k : String) :
    (objGet (regAttach reg src n a) k).isSome = (objGet reg k).isSome := by
  unfold regAttach
  cases h : objGet reg src with
  | none => rfl
  | some m =>
    exact objGet_objSet_isSome reg src _ k (by simp [h])

theorem regAttach_hasAssoc_self (reg : ModelRegistry) (src n : String)
    (a : Association) (h : (objGet reg src).isSome = true) :
    hasAssoc (regAttach reg src n a) src n = true := by
  unfold regAttach
  cases hm : objGet reg src with
  | none => rw [hm] at h; simp at h
  | some m =>
    unfold hasAssoc
    rw [objGet_objSet]
    simp [objGet_objSet]

theorem regAttach_hasAssoc_mono (reg : ModelRegistry) (src n : String)
    (a : Association) (s2 n2 : String) (h : hasAssoc reg s2 n2 = true) :
    hasAssoc (regAttach reg src n a) s2 n2 = true := by
  unfold regAttach
  cases hm : objGet reg src with
  | none => exact h
  | some m =>
    unfold hasAssoc at h ⊢
    rw [objGet_objSet]
    by_cases hs : src = s2
    · subst hs
      rw [hm] at h
      simp only [if_pos rfl]
      exact objGet_objSet_isSome_mono _ _ _ _ h
    · simp only [if_neg hs]
      exact h

/-! ## Per-relation attachment lemmas -/

theorem processRelation_shape (opts : ConversionOptions) (reg : ModelRegistry)
    (src : String) (rel : TableRelation) :
    (processRelation opts reg src rel).1 = reg ∨
      ∃ n a, (processRelation opts reg src rel).1 = regAttach reg src n a := by
  unfold processRelation
  cases objGet reg rel.target with
  | none =>
    by_cases h : opts.strictValidation <;> simp [h]
  | some m =>
    by_cases h1 : rel.type = "hasOne"
    · exact Or.inr ⟨assocName rel, mkAssociation rel "hasOne" none, by simp [h1]⟩
    · by_cases h2 : rel.type = "hasMany"
      · exact Or.inr ⟨assocName rel, mkAssociation rel "hasMany" none, by simp [h1, h2]⟩
      · by_cases h3 : rel.type = "belongsTo"
        · exact Or.inr ⟨assocName rel, mkAssociation rel "belongsTo" none, by simp [h1, h2, h3]⟩
        · by_cases h4 : rel.type = "belongsToMany"
          · by_cases h5 : strTruthy rel.through = true
            · exact Or.inr ⟨assocName rel, mkAssociation rel "belongsToMany" rel.through,
                by simp [h1, h2, h3, h4, h5]⟩
            · exact Or.inl (by simp [h1, h2, h3, h4, h5])
          · by_cases h6 : opts.strictValidation <;>
              exact Or.inl (by simp [h1, h2, h3, h4, h6])

theorem processRelation_presence (opts : ConversionOptions) (reg : ModelRegistry)
    (src : String) (rel : TableRelation) (k : String) :
    (objGet (processRelation opts reg src rel).1 k).isSome = (objGet reg k).isSome := by
  rcases processRelation_shape opts reg src rel with h | ⟨n, a, h⟩
  · rw [h]
  · rw [h, regAttach_presence]

theorem processRelation_hasAssoc_mono (opts : ConversionOptions) (reg : ModelRegistry)
    (src : String) (rel : TableRelation) (s2 n2 : String)
    (h : hasAssoc reg s2 n2 = true) :
    hasAssoc (processRelation opts reg src rel).1 s2 n2 = true := by
  rcases processRelation_shape opts reg src rel with hs | ⟨n, a, hs⟩
  · rw [hs]; exact h
  · rw [hs]; exact regAttach_hasAssoc_mono reg src n a s2 n2 h

theorem processRelation_ok (opts : ConversionOptions) (reg : ModelRegistry)
    (src : String) (rel : TableRelation)
    (htgt : (objGet reg rel.target).isSome = true)
    (hkind : relKindOk rel = true)
    (hsrc : (objGet reg src).isSome = true) :
    (processRelation opts reg src rel).2 = none ∧
      hasAssoc (processRelation opts reg src rel).1 src (assocName rel) = true := by
  unfold processRelation
  cases hm : objGet reg rel.target with
  | none => rw [hm] at htgt; simp at htgt
  | some m =>
    unfold relKindOk at hkind
    simp only [decide_eq_true_eq, Bool.or_eq_true, Bool.and_eq_true] at hkind
    dsimp only
    by_cases h1 : rel.type = "hasOne"
    · rw [if_pos h1]
      exact ⟨rfl, regAttach_hasAssoc_self reg src _ _ hsrc⟩
    · rw [if_neg h1]
      by_cases h2 : rel.type = "hasMany"
      · rw [if_pos h2]
        exact ⟨rfl, regAttach_hasAssoc_self reg src _ _ hsrc⟩
      · rw [if_neg h2]
        by_cases h3 : rel.type = "belongsTo"
        · rw [if_pos h3]
          exact ⟨rfl, regAttach_hasAssoc_self reg src _ _ hsrc⟩
        · rw [if_neg h3]
          by_cases h4 : rel.type = "belongsToMany"
          · rw [if_pos h4]
            have h5 : strTruthy rel.through = true := by
              rcases hkind with h | h | h | ⟨_, h⟩
              · exact absurd h h1
              · exact absurd h h2
              · exact absurd h h3
              · exact h
            rw [if_pos h5]
            exact ⟨rfl, regAttach_hasAssoc_self reg src _ _ hsrc⟩
          · exfalso
            rcases hkind with h | h | h | ⟨h, _⟩
            · exact h1 h
            · exact h2 h
            · exact h3 h
            · exact h4 h

theorem processRelations_presence (opts : ConversionOptions) (src : String)
    (rels : List TableRelation) :
    ∀ reg k, (objGet (processRelations opts reg src rels).1 k).isSome =
      (objGet reg k).isSome := by
  induction rels with
  | nil => intro reg k; rfl
  | cons rel rest ih =>
    intro reg k
    unfold processRelations
    cases hp : processRelation opts reg src rel with
    | mk reg1 err =>
      have hpr : reg1 = (processRelation opts reg src rel).1 := by rw [hp]
      cases err with
      | some e =>
        simp only []
        rw [hpr, processRelation_presence]
      | none =>
        simp only []
        rw [ih reg1 k, hpr, processRelation_presence]

theorem processRelations_hasAssoc_mono (opts : ConversionOptions) (src : String)
    (rels : List TableRelation) :
    ∀ reg s2 n2, hasAssoc reg s2 n2 = true →
      hasAssoc (processRelations opts reg src rels).1 s2 n2 = true := by
  induction rels with
  | nil => intro reg s2 n2 h; exact h
  | cons rel rest ih =>
    intro reg s2 n2 h
    unfold processRelations
    cases hp : processRelation opts reg src rel with
    | mk reg1 err =>
      have hpr : reg1 = (processRelation opts reg src rel).1 := by rw [hp]
      have h1 : hasAssoc reg1 s2 n2 = true := by
        rw [hpr]; exact processRelation_hasAssoc_mono opts reg src rel s2 n2 h
      cases err with
      | some e => exact h1
      | none => exact ih reg1 s2 n2 h1

theorem processRelations_ok (opts : ConversionOptions) (src : String)
    (rels : List TableRelation) :
    ∀ reg, (objGet reg src).isSome = true →
      (∀ rel ∈ rels, (objGet reg rel.target).isSome = true ∧ relKindOk rel = true) →
      (processRelations opts reg src rels).2 = none ∧
        ∀ rel ∈ rels,
          hasAssoc (processRelations opts reg src rels).1 src (assocName rel) = true := by
  induction rels with
  | nil => intro reg _ _; exact ⟨rfl, by intro rel h; simp at h⟩
  | cons rel rest ih =>
    intro reg hsrc hall
    obtain ⟨htgt, hkind⟩ := hall rel (List.mem_cons_self rel rest)
    obtain ⟨hok, hatt⟩ := processRelation_ok opts reg src rel htgt hkind hsrc
    unfold processRelations
    cases hp : processRelation opts reg src rel with
    | mk reg1 err =>
      have herr : err = none := by rw [hp] at hok; exact hok
      subst herr
      have hpr : reg1 = (processRelation opts reg src rel).1 := by rw [hp]
      have hsrc1 : (objGet reg1 src).isSome = true := by
        rw [hpr, processRelation_presence]; exact hsrc
      have hall1 : ∀ r ∈ rest, (objGet reg1 r.target).isSome = true ∧ relKindOk r = true := by
        intro r hr
        obtain ⟨ht, hk⟩ := hall r (List.mem_cons_of_mem rel hr)
        exact ⟨by rw [hpr, processRelation_presence]; exact ht, hk⟩
      obtain ⟨hok2, hatt2⟩ := ih reg1 hsrc1 hall1
      refine ⟨hok2, ?_⟩
      intro r hr
      rcases List.mem_cons.mp hr with he | hm
      · subst he
        have hval : hasAssoc reg1 src (assocName r) = true := by
          rw [hpr]; exact hatt
        exact processRelations_hasAssoc_mono opts src rest reg1 src (assocName r) hval
      · exact hatt2 r hm

/-! ## Schema-level and phase-level lemmas -/

theorem createRelations_presence (opts : ConversionOptions) (reg : ModelRegistry)
    (schema : TableSchema) (k : String) :
    (objGet (createRelations opts reg schema).1 k).isSome = (objGet reg k).isSome := by
  unfold createRelations
  cases hm : objGet reg schema.table_name with
  | none => rfl
  | some m => exact processRelations_presence opts schema.table_name (relsOf schema) reg k

theorem createRelations_hasAssoc_mono (opts : ConversionOptions) (reg : ModelRegistry)
    (schema : TableSchema) (s2 n2 : String) (h : hasAssoc reg s2 n2 = true) :
    hasAssoc (createRelations opts reg schema).1 s2 n2 = true := by
  unfold createRelations
  cases hm : objGet reg schema.table_name with
  | none => exact h
  | some m =>
    exact processRelations_hasAssoc_mono opts schema.table_name (relsOf schema) reg s2 n2 h

theorem createRelations_ok (opts : ConversionOptions) (reg : ModelRegistry)
    (schema : TableSchema)
    (hsrc : (objGet reg schema.table_name).isSome = true)
    (hall : ∀ rel ∈ relsOf schema,
      (objGet reg rel.target).isSome = true ∧ relKindOk rel = true) :
    (createRelations opts reg schema).2 = none ∧
      ∀ rel ∈ relsOf schema,
        hasAssoc (createRelations opts reg schema).1 schema.table_name (assocName rel) = true := by
  unfold createRelations
  cases hm : objGet reg schema.table_name with
  | none => rw [hm] at hsrc; simp at hsrc
  | some m => exact processRelations_ok opts schema.table_name (relsOf schema) reg hsrc hall

theorem relatePhase_presence (opts : ConversionOptions) (schemas : List TableSchema) :
    ∀ reg k, (objGet (relatePhase opts reg schemas).1 k).isSome = (objGet reg k).isSome := by
  induction schemas with
  | nil => intro reg k; rfl
  | cons s rest ih =>
    intro reg k
    unfold relatePhase
    by_cases hempty : (relsOf s).isEmpty
    · rw [if_pos hempty]; exact ih reg k
    · rw [if_neg hempty]
      cases hc : createRelations opts reg s with
      | mk reg1 err =>
        have hcr : reg1 = (createRelations opts reg s).1 := by rw [hc]
        cases err with
        | some e => dsimp only; rw [hcr, createRelations_presence]
        | none => dsimp only; rw [ih reg1 k, hcr, createRelations_presence]

theorem relatePhase_hasAssoc_mono (opts : ConversionOptions) (schemas : List TableSchema) :
    ∀ reg s2 n2, hasAssoc reg s2 n2 = true →
      hasAssoc (relatePhase opts reg schemas).1 s2 n2 = true := by
  induction schemas with
  | nil => intro reg s2 n2 h; exact h
  | cons s rest ih =>
    intro reg s2 n2 h
    unfold relatePhase
    by_cases hempty : (relsOf s).isEmpty
    · rw [if_pos hempty]; exact ih reg s2 n2 h
    · rw [if_neg hempty]
      cases hc : createRelations opts reg s with
      | mk reg1 err =>
        have hcr : reg1 = (createRelations opts reg s).1 := by rw [hc]
        have h1 : hasAssoc reg1 s2 n2 = true := by
          rw [hcr]; exact createRelations_hasAssoc_mono opts reg s s2 n2 h
        cases err with
        | some e => exact h1
        | none => exact ih reg1 s2 n2 h1

theorem relatePhase_ok (opts : ConversionOptions) (schemas : List TableSchema) :
    ∀ reg,
      (∀ s ∈ schemas, (objGet reg s.table_name).isSome = true) →
      (∀ s ∈ schemas, ∀ rel ∈ relsOf s,
        (objGet reg rel.target).isSome = true ∧ relKindOk rel = true) →
      (relatePhase opts reg schemas).2 = none ∧
        ∀ s ∈ schemas, ∀ rel ∈ relsOf s,
          hasAssoc (relatePhase opts reg schemas).1 s.table_name (assocName rel) = true := by
  induction schemas with
  | nil =>
    intro reg _ _
    exact ⟨rfl, by intro s h; simp at h⟩
  | cons s rest ih =>
    intro reg hsrcs hall
    unfold relatePhase
    by_cases hempty : (relsOf s).isEmpty
    · rw [if_pos hempty]
      have hrels : relsOf s = [] := List.isEmpty_iff.mp hempty
      obtain ⟨hok, hatt⟩ := ih reg
        (fun t ht => hsrcs t (List.mem_cons_of_mem s ht))
        (fun t ht => hall t (List.mem_cons_of_mem s ht))
      refine ⟨hok, ?_⟩
      intro t ht rel hrel
      rcases List.mem_cons.mp ht with he | hm
      · subst he; rw [hrels] at hrel; simp at hrel
      · exact hatt t hm rel hrel
    · rw [if_neg hempty]
      obtain ⟨hok1, hatt1⟩ := createRelations_ok opts reg s
        (hsrcs s (List.mem_cons_self s rest))
        (hall s (List.mem_cons_self s rest))
      cases hc : createRelations opts reg s with
      | mk reg1 err =>
        have herr : err = none := by rw [hc] at hok1; exact hok1
        subst herr
        have hcr : reg1 = (createRelations opts reg s).1 := by rw [hc]
        have hsrcs1 : ∀ t ∈ rest, (objGet reg1 t.table_name).isSome = true := by
          intro t ht
          rw [hcr, createRelations_presence]
          exact hsrcs t (List.mem_cons_of_mem s ht)
        have hall1 : ∀ t ∈ rest, ∀ rel ∈ relsOf t,
            (objGet reg1 rel.target).isSome = true ∧ relKindOk rel = true := by
          intro t ht rel hrel
          obtain ⟨h1, h2⟩ := hall t (List.mem_cons_of_mem s ht) rel hrel
          exact ⟨by rw [hcr, createRelations_presence]; exact h1, h2⟩
        obtain ⟨hok2, hatt2⟩ := ih reg1 hsrcs1 hall1
        refine ⟨hok2, ?_⟩
        intro t ht rel hrel
        rcases List.mem_cons.mp ht with he | hm
        · subst he
          have hval : hasAssoc reg1 t.table_name (assocName rel) = true := by
            rw [hcr]; exact hatt1 rel hrel
          exact relatePhase_hasAssoc_mono opts rest reg1 t.table_name (assocName rel) hval
        · exact hatt2 t hm rel hrel

theorem registerModels_presence_mono (opts : ConversionOptions)
    (schemas : List TableSchema) :
    ∀ reg k, (objGet reg k).isSome = true →
      (objGet (registerModels opts reg schemas).1 k).isSome = true := by
  induction schemas with
  | nil => intro reg k h; exact h
  | cons s rest ih =>
    intro reg k h
    unfold registerModels
    cases hc : convertToSequelize opts s with
    | error e => exact h
    | ok m => exact ih _ k (objGet_objSet_isSome_mono reg s.table_name m k h)

theorem registerModels_mem (opts : ConversionOptions) (schemas : List TableSchema) :
    ∀ reg, (registerModels opts reg schemas).2 = none →
      ∀ s ∈ schemas, (objGet (registerModels opts reg schemas).1 s.table_name).isSome = true := by
  induction schemas with
  | nil => intro reg _ s h; simp at h
  | cons s rest ih =>
    intro reg hok t ht
    unfold registerModels at hok ⊢
    cases hc : convertToSequelize opts s with
    | error e => rw [hc] at hok; simp at hok
    | ok m =>
      rw [hc] at hok
      rcases List.mem_cons.mp ht with he | hm
      · subst he
        exact registerModels_presence_mono opts rest _ t.table_name
          (by rw [objGet_objSet]; simp)
      · exact ih _ hok t hm

/-! ## Success of the model-building phase -/

theorem getSequelizeType_ok (opts : ConversionOptions) (c : Column)
    (h : columnTypeResolves opts c = true) :
    ∃ t, getSequelizeType opts c = .ok t := by
  unfold columnTypeResolves at h
  unfold getSequelizeType
  cases hm : typeMapping (strToLower c.type) with
  | some t => exact ⟨applyParams t c, rfl⟩
  | none =>
    rw [hm] at h
    simp only [Option.isSome_none, Bool.or_false, Bool.not_eq_true'] at h
    rw [h]
    exact ⟨applyParams .STRING c, rfl⟩

theorem buildColumnDefinition_ok (opts : ConversionOptions) (c : Column)
    (h : columnTypeResolves opts c = true) :
    ∃ d, buildColumnDefinition opts c = .ok d := by
  obtain ⟨t, ht⟩ := getSequelizeType_ok opts c h
  unfold buildColumnDefinition
  rw [ht]
  dsimp only
  split_ifs <;> exact ⟨_, rfl⟩

theorem buildAttributes_ok (opts : ConversionOptions) (cols : List Column)
    (h : ∀ c ∈ cols, columnTypeResolves opts c = true) :
    ∀ acc, ∃ attrs, buildAttributes opts cols acc = .ok attrs := by
  induction cols with
  | nil => intro acc; exact ⟨acc, rfl⟩
  | cons c rest ih =>
    intro acc
    obtain ⟨d, hd⟩ := buildColumnDefinition_ok opts c (h c (List.mem_cons_self c rest))
    unfold buildAttributes
    rw [hd]
    exact ih (fun x hx => h x (List.mem_cons_of_mem c hx)) (objSet acc c.name d)

theorem convertToSequelize_ok (opts : ConversionOptions) (schema : TableSchema)
    (h : ∀ c ∈ schema.columns, columnTypeResolves opts c = true) :
    ∃ m, convertToSequelize opts schema = .ok m := by
  obtain ⟨attrs, hattrs⟩ := buildAttributes_ok opts schema.columns h []
  unfold convertToSequelize
  rw [hattrs]
  exact ⟨_, rfl⟩

theorem registerModels_ok (opts : ConversionOptions) (schemas : List TableSchema)
    (h : ∀ s ∈ schemas, ∀ c ∈ s.columns, columnTypeResolves opts c = true) :
    ∀ reg, (registerModels opts reg schemas).2 = none := by
  induction schemas with
  | nil => intro reg; rfl
  | cons s rest ih =>
    intro reg
    obtain ⟨m, hm⟩ := convertToSequelize_ok opts s (h s (List.mem_cons_self s rest))
    unfold registerModels
    rw [hm]
    exact ih (fun t ht => h t (List.mem_cons_of_mem s ht)) _

/-! ## Validator decomposition lemmas -/

theorem listJoin_eq_nil {α : Type} (L : List (List α)) (h : listJoin L = []) :
    ∀ l ∈ L, l = [] := by
  induction L with
  | nil => intro l hl; simp at hl
  | cons x rest ih =>
    intro l hl
    unfold listJoin at h
    rw [List.append_eq_nil] at h
    rcases List.mem_cons.mp hl with he | hm
    · subst he; exact h.1
    · exact ih h.2 l hm

theorem listJoin_mem_parts {α : Type} (L : List (List α)) (x : List α) (h : x ∈ L) :
    ∃ pre post, listJoin L = pre ++ x ++ post := by
  induction L with
  | nil => simp at h
  | cons y rest ih =>
    rcases List.mem_cons.mp h with he | hm
    · subst he
      exact ⟨[], listJoin rest, by simp [listJoin]⟩
    · obtain ⟨pre, post, hpp⟩ := ih hm
      exact ⟨y ++ pre, post, by simp [listJoin, hpp]⟩

theorem withIdx_mem_snd {α : Type} (l : List α) :
    ∀ n i a, (i, a) ∈ withIdx l n → a ∈ l := by
  induction l with
  | nil => intro n i a h; simp [withIdx] at h
  | cons x rest ih =>
    intro n i a h
    unfold withIdx at h
    rcases List.mem_cons.mp h with he | hm
    · rw [Prod.mk.injEq] at he
      exact he.2 ▸ List.mem_cons_self x rest
    · exact List.mem_cons_of_mem x (ih (n + 1) i a hm)

theorem withIdx_mem_of_mem {α : Type} (l : List α) :
    ∀ n a, a ∈ l → ∃ i, (i, a) ∈ withIdx l n := by
  induction l with
  | nil => intro n a h; simp at h
  | cons x rest ih =>
    intro n a h
    rcases List.mem_cons.mp h with he | hm
    · subst he
      exact ⟨n, List.mem_cons_self _ _⟩
    · obtain ⟨i, hi⟩ := ih (n + 1) a hm
      exact ⟨i, List.mem_cons_of_mem _ hi⟩

theorem validateRelations_valid_iff (schemas : List TableSchema) :
    (validateRelations schemas).1 = true ↔ (validateRelations schemas).2 = [] := by
  unfold validateRelations
  dsimp only
  exact List.isEmpty_iff

theorem validateRelations_each_nil (schemas : List TableSchema)
    (hval : (validateRelations schemas).1 = true)
    (s : TableSchema) (hs : s ∈ schemas)
    (i : Nat) (rel : TableRelation) (hrel : (i, rel) ∈ withIdx (relsOf s) 0) :
    relationErrors schemas s i rel = [] := by
  have herrs : (validateRelations schemas).2 = [] :=
    (validateRelations_valid_iff schemas).mp hval
  unfold validateRelations at herrs
  dsimp only at herrs
  have hschema : listJoin ((withIdx (relsOf s) 0).map (fun p =>
      relationErrors schemas s p.1 p.2)) = [] := by
    refine listJoin_eq_nil _ herrs _ ?_
    exact List.mem_map_of_mem _ hs
  refine listJoin_eq_nil _ hschema _ ?_
  have : relationErrors schemas s i rel =
      (fun p : Nat × TableRelation => relationErrors schemas s p.1 p.2) (i, rel) := rfl
  rw [this]
  exact List.mem_map_of_mem _ hrel

theorem relationErrors_target (schemas : List TableSchema) (s : TableSchema)
    (i : Nat) (rel : TableRelation)
    (h : relationErrors schemas s i rel = []) :
    ∃ ts, findTable schemas rel.target = some ts := by
  unfold relationErrors at h
  cases hf : findTable schemas rel.target with
  | none => rw [hf] at h; simp at h
  | some ts => exact ⟨ts, rfl⟩

theorem relationErrors_through (schemas : List TableSchema) (s : TableSchema)
    (i : Nat) (rel : TableRelation)
    (h : relationErrors schemas s i rel = [])
    (hb : rel.type = "belongsToMany") :
    strTruthy rel.through = true := by
  obtain ⟨ts, hts⟩ := relationErrors_target schemas s i rel h
  unfold relationErrors at h
  rw [hts] at h
  rcases List.append_eq_nil.mp (List.append_eq_nil.mp (List.append_eq_nil.mp h).1).1
    with ⟨hthrough, _⟩
  by_contra hnt
  unfold throughErrors at hthrough
  rw [if_pos hb, if_pos (by simpa using hnt)] at hthrough
  simp at hthrough

theorem findTable_mem (schemas : List TableSchema) (n : String) (ts : TableSchema)
    (h : findTable schemas n = some ts) : ts ∈ schemas ∧ ts.table_name = n := by
  unfold findTable at h
  have h1 := List.mem_of_find?_eq_some h
  have h2 := List.find?_some h
  simp only [decide_eq_true_eq] at h2
  exact ⟨h1, h2⟩

/-! ## Claim C1 -/

/-- C1 (amended): for a schema batch that passes `validateRelations`, in
which every relation type string is one of the four known kinds and every
column type resolves under the chosen options (always true in lenient
mode), `establishRelations` raises no error and every relation of the
batch ends up attached as an association on its source model in the
returned registry. -/
theorem validated_establishRelations_ok (opts : ConversionOptions)
    (reg0 : ModelRegistry) (schemas : List TableSchema)
    (hval : (validateRelations schemas).1 = true)
    (hkinds : ∀ s ∈ schemas, ∀ rel ∈ relsOf s, rel.type ∈ knownRelationTypes)
    (htypes : ∀ s ∈ schemas, ∀ c ∈ s.columns, columnTypeResolves opts c = true) :
    (establishRelations opts reg0 schemas).2 = none ∧
      ∀ s ∈ schemas, ∀ rel ∈ relsOf s,
        hasAssoc (establishRelations opts reg0 schemas).1 s.table_name
          (assocName rel) = true := by
  have hreg : (registerModels opts reg0 schemas).2 = none :=
    registerModels_ok opts schemas htypes reg0
  unfold establishRelations
  cases hrm : registerModels opts reg0 schemas with
  | mk reg1 err =>
    have herr : err = none := by rw [hrm] at hreg; exact hreg
    subst herr
    dsimp only
    have hmem : ∀ s ∈ schemas, (objGet reg1 s.table_name).isSome = true := by
      intro s hs
      have hx := registerModels_mem opts schemas reg0 hreg s hs
      rw [hrm] at hx; exact hx
    have hall : ∀ s ∈ schemas, ∀ rel ∈ relsOf s,
        (objGet reg1 rel.target).isSome = true ∧ relKindOk rel = true := by
      intro s hs rel hrel
      obtain ⟨i, hidx⟩ := withIdx_mem_of_mem (relsOf s) 0 rel hrel
      have hre : relationErrors schemas s i rel = [] :=
        validateRelations_each_nil schemas hval s hs i rel hidx
      obtain ⟨ts, hts⟩ := relationErrors_target schemas s i rel hre
      obtain ⟨htsmem, htsname⟩ := findTable_mem schemas rel.target ts hts
      constructor
      · have hx := hmem ts htsmem
        rw [htsname] at hx; exact hx
      · have hk := hkinds s hs rel hrel
        simp only [knownRelationTypes, List.mem_cons, List.not_mem_nil, or_false] at hk
        unfold relKindOk
        simp only [decide_eq_true_eq]
        rcases hk with h | h | h | h
        · exact Or.inl h
        · exact Or.inr (Or.inl h)
        · exact Or.inr (Or.inr (Or.inl h))
        · exact Or.inr (Or.inr (Or.inr
            ⟨h, relationErrors_through schemas s i rel hre h⟩))
    exact relatePhase_ok opts schemas reg1 hmem hall

/-- C1, counterexample to the claim as stated: `emailOnlySchemas` passes
`validateRelations` (it declares no relations, and the validator checks no
column types), yet `establishRelations` in strict mode throws on the
unmapped column type `email`. -/
theorem validate_establish_counterexample :
    (validateRelations emailOnlySchemas).1 = true ∧
      (establishRelations { strictValidation := true } [] emailOnlySchemas).2 =
        some "Unsupported column type: email" :=
  ⟨by decide, by decide⟩

/-- C1, witness: the amended theorem applied to a concrete valid batch. -/
theorem validated_establishRelations_ok_witness :
    (establishRelations {} [] forwardRefSchemas).2 = none ∧
      ∀ s ∈ forwardRefSchemas, ∀ rel ∈ relsOf s,
        hasAssoc (establishRelations {} [] forwardRefSchemas).1 s.table_name
          (assocName rel) = true :=
  validated_establishRelations_ok {} [] forwardRefSchemas (by decide) (by decide)
    (by decide)

/-- The `validate` object of a successfully built column definition, as a
function of the column's explicit `validate` map and its semantic type. -/
theorem buildColumnDefinition_validate (opts : ConversionOptions) (c : Column)
    (t : DataType) (ht : getSequelizeType opts c = .ok t) :
    ∃ d, buildColumnDefinition opts c = .ok d ∧
      d.validate =
        (if strToLower c.type = "email" then
          objSet (c.validate.getD []) "isEmail" (.bool true)
        else if strToLower c.type = "url" then
          objSet (c.validate.getD []) "isUrl" (.bool true)
        else if strToLower c.type = "ip" then
          objSet (c.validate.getD []) "isIP" (.bool true)
        else c.validate.getD []) := by
  unfold buildColumnDefinition
  rw [ht]
  dsimp only
  cases hdv : c.default_value with
  | none =>
    cases hcm : c.comment with
    | none => split_ifs <;> exact ⟨_, rfl, rfl⟩
    | some cm => split_ifs <;> exact ⟨_, rfl, rfl⟩
  | some v =>
    cases hcm : c.comment with
    | none => split_ifs <;> exact ⟨_, rfl, rfl⟩
    | some cm => split_ifs <;> exact ⟨_, rfl, rfl⟩

/-! ## Claim C2 -/

/-- C2 (amended): for a column of semantic type `email` / `url` / `ip`
(in the converter's default lenient mode), the built definition's
`validate` object is the explicit map with the type-implied key assigned
`true` on top of it: every explicitly-given rule under a different key is
kept verbatim, but on a collision with the type-implied key the implied
`true` overwrites the explicit value (the assignment runs after the
explicit rules are copied). -/
theorem typeImplied_validate_merge (c : Column)
    (h : strToLower c.type = "email" ∨ strToLower c.type = "url" ∨
      strToLower c.type = "ip") :
    ∃ d, buildColumnDefinition {} c = .ok d ∧
      d.validate = objSet (c.validate.getD [])
        (impliedValidateKey (strToLower c.type)) (.bool true) ∧
      objGet d.validate (impliedValidateKey (strToLower c.type)) =
        some (.bool true) ∧
      ∀ k, k ≠ impliedValidateKey (strToLower c.type) →
        objGet d.validate k = objGet (c.validate.getD []) k := by
  obtain ⟨t, ht⟩ := getSequelizeType_ok {} c (by simp [columnTypeResolves])
  obtain ⟨d, hd, hv⟩ := buildColumnDefinition_validate {} c t ht
  refine ⟨d, hd, ?_⟩
  have hveq : d.validate = objSet (c.validate.getD [])
      (impliedValidateKey (strToLower c.type)) (.bool true) := by
    rcases h with hx | hx | hx
    · rw [hv, if_pos hx, hx]
      rfl
    · have hne : ¬ strToLower c.type = "email" := by rw [hx]; decide
      rw [hv, if_neg hne, if_pos hx, hx]
      rfl
    · have hne : ¬ strToLower c.type = "email" := by rw [hx]; decide
      have hne2 : ¬ strToLower c.type = "url" := by rw [hx]; decide
      rw [hv, if_neg hne, if_neg hne2, if_pos hx, hx]
      rfl
  refine ⟨hveq, ?_, ?_⟩
  · rw [hveq, objGet_objSet, if_pos rfl]
  · intro k hk
    rw [hveq, objGet_objSet, if_neg (fun e => hk e.symm)]

/-- C2, counterexample to the claim as stated: an explicit
`validate: \x7b isEmail: false \x7d` on an `email` column does not win the
key collision — the built definition carries `isEmail: true`, because the
type-implied assignment runs after the explicit map is copied. -/
theorem explicit_validate_loses_collision :
    ((buildColumnDefinition {} emailExplicitCol).toOption.map
        (fun d => objGet d.validate "isEmail") = some (some (.bool true))) ∧
      ¬ ((buildColumnDefinition {} emailExplicitCol).toOption.map
        (fun d => objGet d.validate "isEmail") = some (some (.bool false))) :=
  ⟨by decide, by decide⟩

/-- C2, witness: the amended merge law at a concrete email column with an
explicit rule map. -/
theorem typeImplied_validate_merge_witness :
    ∃ d, buildColumnDefinition {} emailExplicitCol = .ok d ∧
      d.validate = objSet (emailExplicitCol.validate.getD [])
        (impliedValidateKey (strToLower emailExplicitCol.type)) (.bool true) ∧
      objGet d.validate (impliedValidateKey (strToLower emailExplicitCol.type)) =
        some (.bool true) ∧
      ∀ k, k ≠ impliedValidateKey (strToLower emailExplicitCol.type) →
        objGet d.validate k = objGet (emailExplicitCol.validate.getD []) k :=
  typeImplied_validate_merge emailExplicitCol (by decide)

/-! ## Claim C3 -/

/-- C3 (amended): on the end-to-end `users` schema, the Column Builder
attaches the email-format validator to the `email` column and forces its
concrete type to the string type; `id` is primary key and auto-increment,
but its built definition has `allowNull = true` — `nullable` was omitted
and the builder defaults to nullable; only the ORM layer, not the builder,
makes primary keys non-nullable.  (`email` has `allowNull = false` from
its explicit `nullable: false`.) -/
theorem users_schema_end_to_end :
    ((convertToSequelize {} usersSchema).toOption.map (fun m =>
      ((objGet m.attributes "id").map (fun d =>
        (d.primaryKey, d.autoIncrement, d.allowNull)),
       (objGet m.attributes "email").map (fun d =>
        (d.type, d.allowNull, d.unique, objGet d.validate "isEmail"))))) =
    some (some (true, true, true),
          some (.STRING, false, true, some (.bool true))) := by
  decide

/-- C3, counterexample to the claim as stated: the built definition of
`id` has `allowNull = true`, not the "not nullable" the claim asserts. -/
theorem users_id_allowNull_counterexample :
    ((convertToSequelize {} usersSchema).toOption.map (fun m =>
      (objGet m.attributes "id").map (fun d => d.allowNull))) = some (some true) ∧
    ¬ ((convertToSequelize {} usersSchema).toOption.map (fun m =>
      (objGet m.attributes "id").map (fun d => d.allowNull))) = some (some false) :=
  ⟨by decide, by decide⟩

/-! ## Claim C5 -/

/-- C5: `establishRelations` registers a model for every schema of the
batch in its first phase, before any association is attached; hence every
relation whose target is declared anywhere in the batch — later in the
array or the source table itself — finds its target model in the registry,
both in the phase-1 registry and in the registry `establishRelations`
finally yields. -/
theorem establish_registers_before_attaching (opts : ConversionOptions)
    (reg0 : ModelRegistry) (schemas : List TableSchema)
    (hreg : (registerModels opts reg0 schemas).2 = none) :
    (∀ s ∈ schemas,
      (objGet (registerModels opts reg0 schemas).1 s.table_name).isSome = true) ∧
    (∀ s ∈ schemas, ∀ rel ∈ relsOf s,
      rel.target ∈ schemas.map TableSchema.table_name →
      (objGet (registerModels opts reg0 schemas).1 rel.target).isSome = true ∧
      (objGet (establishRelations opts reg0 schemas).1 rel.target).isSome = true) := by
  have hmem := registerModels_mem opts schemas reg0 hreg
  refine ⟨hmem, ?_⟩
  intro s hs rel hrel htgt
  obtain ⟨ts, hts, hname⟩ := List.mem_map.mp htgt
  have hp1 : (objGet (registerModels opts reg0 schemas).1 rel.target).isSome = true := by
    have hx := hmem ts hts
    rw [hname] at hx
    exact hx
  refine ⟨hp1, ?_⟩
  unfold establishRelations
  cases hrm : registerModels opts reg0 schemas with
  | mk reg1 err =>
    have herr : err = none := by rw [hrm] at hreg; exact hreg
    subst herr
    dsimp only
    rw [relatePhase_presence]
    rw [hrm] at hp1
    exact hp1

/-- C5, witness: the two-phase ordering on a concrete batch with a forward
reference and a self-reference. -/
theorem establish_registers_before_attaching_witness :
    (∀ s ∈ forwardRefSchemas,
      (objGet (registerModels {} [] forwardRefSchemas).1 s.table_name).isSome = true) ∧
    (∀ s ∈ forwardRefSchemas, ∀ rel ∈ relsOf s,
      rel.target ∈ forwardRefSchemas.map TableSchema.table_name →
      (objGet (registerModels {} [] forwardRefSchemas).1 rel.target).isSome = true ∧
      (objGet (establishRelations {} [] forwardRefSchemas).1 rel.target).isSome = true) :=
  establish_registers_before_attaching {} [] forwardRefSchemas (by decide)

/-! ## Claim C6 -/

/-- C6: `validateRelations` returns `valid = true` exactly when its error
list is empty, and the error list contains — as a contiguous block — the
errors of every relation of every schema of the batch: no relation is
skipped and no failure short-circuits the scan. -/
theorem validateRelations_accumulates (schemas : List TableSchema) :
    ((validateRelations schemas).1 = true ↔ (validateRelations schemas).2 = []) ∧
    ∀ s ∈ schemas, ∀ p ∈ withIdx (relsOf s) 0,
      ∃ pre post, (validateRelations schemas).2 =
        pre ++ relationErrors schemas s p.1 p.2 ++ post := by
  refine ⟨validateRelations_valid_iff schemas, ?_⟩
  intro s hs p hp
  unfold validateRelations
  dsimp only
  obtain ⟨pre1, post1, h1⟩ := listJoin_mem_parts _ _
    (List.mem_map_of_mem (fun s => listJoin ((withIdx (relsOf s) 0).map
      (fun p => relationErrors schemas s p.1 p.2))) hs)
  obtain ⟨pre2, post2, h2⟩ := listJoin_mem_parts _ _
    (List.mem_map_of_mem (fun p => relationErrors schemas s p.1 p.2) hp)
  dsimp only at h1 h2
  refine ⟨pre1 ++ pre2, post2 ++ post1, ?_⟩
  rw [h1, h2]
  simp [List.append_assoc]

/-- C6, witness: on a batch with two independently invalid relations, the
error list carries both relations' errors and `valid` is false iff the
list is non-empty. -/
theorem validateRelations_accumulates_witness :
    (((validateRelations invalidPairSchemas).1 = true ↔
        (validateRelations invalidPairSchemas).2 = []) ∧
      ∀ s ∈ invalidPairSchemas, ∀ p ∈ withIdx (relsOf s) 0,
        ∃ pre post, (validateRelations invalidPairSchemas).2 =
          pre ++ relationErrors invalidPairSchemas s p.1 p.2 ++ post) ∧
    (validateRelations invalidPairSchemas).2.length = 2 :=
  ⟨validateRelations_accumulates invalidPairSchemas, by decide⟩

/-! ## Claim C7 -/

/-- C7 (amended): for a `belongsToMany` relation lacking a (truthy)
`through` whose target table IS found in the batch, `validateRelations`
emits the error naming the missing `through` requirement (and it appears
in the batch error list when the relation is in the batch); and the
relation-attachment step of `establishRelations` raises the hard
`through`-required error in both strict and lenient mode whenever the
target model is present in the registry.  When the target is missing the
claim fails as stated: validation reports only the missing-target error,
and lenient establishment silently skips the relation. -/
theorem belongsToMany_missing_through (schemas : List TableSchema)
    (schema : TableSchema) (i : Nat) (rel : TableRelation)
    (hb : rel.type = "belongsToMany")
    (hth : strTruthy rel.through = false)
    (htgt : (findTable schemas rel.target).isSome = true) :
    ((schema.table_name ++ ": belongsToMany relation to " ++ rel.target ++
        " requires through property") ∈ relationErrors schemas schema i rel) ∧
    (schema ∈ schemas → (i, rel) ∈ withIdx (relsOf schema) 0 →
      (schema.table_name ++ ": belongsToMany relation to " ++ rel.target ++
        " requires through property") ∈ (validateRelations schemas).2) ∧
    (∀ opts reg src, (objGet reg rel.target).isSome = true →
      (processRelation opts reg src rel).2 =
        some ("belongsToMany relation requires through table for " ++
          src ++ " -> " ++ rel.target)) := by
  have hmem : (schema.table_name ++ ": belongsToMany relation to " ++ rel.target ++
      " requires through property") ∈ relationErrors schemas schema i rel := by
    unfold relationErrors
    cases hf : findTable schemas rel.target with
    | none => rw [hf] at htgt; simp at htgt
    | some ts =>
      apply List.mem_append_left
      apply List.mem_append_left
      apply List.mem_append_left
      unfold throughErrors
      rw [if_pos hb, if_pos (by simp [hth])]
      exact List.mem_singleton.mpr rfl
  refine ⟨hmem, ?_, ?_⟩
  · intro hs hidx
    unfold validateRelations
    dsimp only
    obtain ⟨pre1, post1, h1⟩ := listJoin_mem_parts _ _
      (List.mem_map_of_mem (fun s => listJoin ((withIdx (relsOf s) 0).map
        (fun p => relationErrors schemas s p.1 p.2))) hs)
    obtain ⟨pre2, post2, h2⟩ := listJoin_mem_parts _ _
      (List.mem_map_of_mem (fun p => relationErrors schemas schema p.1 p.2) hidx)
    dsimp only at h1 h2
    rw [h1, h2]
    apply List.mem_append_left
    apply List.mem_append_right
    apply List.mem_append_left
    apply List.mem_append_right
    exact hmem
  · intro opts reg src hpres
    unfold processRelation
    cases hm : objGet reg rel.target with
    | none => rw [hm] at hpres; simp at hpres
    | some m =>
      dsimp only
      rw [if_neg (show ¬ rel.type = "hasOne" by rw [hb]; decide)]
      rw [if_neg (show ¬ rel.type = "hasMany" by rw [hb]; decide)]
      rw [if_neg (show ¬ rel.type = "belongsTo" by rw [hb]; decide)]
      rw [if_pos hb]
      rw [if_neg (show ¬ strTruthy rel.through = true by simp [hth])]

/-- C7, counterexample to the claim as stated: for a `belongsToMany`
relation lacking `through` whose target is also missing from the batch,
no `validateRelations` error mentions `through` (only the missing-target
error is emitted: check 1 returns early), and lenient
`establishRelations` raises no error at all — it skips the relation. -/
theorem belongsToMany_missing_through_counterexample :
    (validateRelations btmMissingTargetSchemas).2.all
      (fun e => ! strIncludes e "through") = true ∧
    (validateRelations btmMissingTargetSchemas).1 = false ∧
    (establishRelations {} [] btmMissingTargetSchemas).2 = none :=
  ⟨by decide, by decide, by decide⟩

/-- C7, witness: the amended theorem at a concrete self-`belongsToMany`
relation without `through`. -/
theorem belongsToMany_missing_through_witness :
    (("a: belongsToMany relation to a requires through property") ∈
      relationErrors btmNoThroughSchemas
        { table_name := "a", columns := [intCol "id"]
          relations := some [ { type := "belongsToMany", target := "a" } ] } 0
        { type := "belongsToMany", target := "a" }) ∧
    (("a: belongsToMany relation to a requires through property") ∈
      (validateRelations btmNoThroughSchemas).2) ∧
    ((processRelation { strictValidation := true }
        (registerModels {} [] btmNoThroughSchemas).1 "a"
        { type := "belongsToMany", target := "a" }).2 =
      some ("belongsToMany relation requires through table for " ++ "a" ++
        " -> " ++ "a")) := by
  have h := belongsToMany_missing_through btmNoThroughSchemas
    { table_name := "a", columns := [intCol "id"]
      relations := some [ { type := "belongsToMany", target := "a" } ] } 0
    { type := "belongsToMany", target := "a" } (by decide) (by decide) (by decide)
  exact ⟨h.1, h.2.1 (by decide) (by decide),
    h.2.2 { strictValidation := true } (registerModels {} [] btmNoThroughSchemas).1
      "a" (by decide)⟩

/-! ## Claim C8 -/

/-- C8: during the relation-attachment phase, a relation whose target
model is absent from the registry, or whose type string is outside the
four known kinds (with the target present), throws under
`strictValidation` and is silently skipped in lenient mode — the registry
is left untouched and the remaining relations of the list are still
processed. -/
theorem lenient_skips_strict_throws (reg : ModelRegistry) (src : String)
    (rel : TableRelation) (rest : List TableRelation) :
    (objGet reg rel.target = none →
      (processRelation strictOpts reg src rel).2 =
        some ("Target model " ++ rel.target ++ " not found in registry") ∧
      processRelation {} reg src rel = (reg, none) ∧
      processRelations {} reg src (rel :: rest) = processRelations {} reg src rest) ∧
    ((objGet reg rel.target).isSome = true → rel.type ∉ knownRelationTypes →
      (processRelation strictOpts reg src rel).2 =
        some ("Unknown relation type: " ++ rel.type) ∧
      processRelation {} reg src rel = (reg, none) ∧
      processRelations {} reg src (rel :: rest) = processRelations {} reg src rest) := by
  constructor
  · intro h
    have hlen : processRelation {} reg src rel = (reg, none) := by
      unfold processRelation
      rw [h]
      simp [ConversionOptions.strictValidation]
    refine ⟨?_, hlen, ?_⟩
    · unfold processRelation
      rw [h]
      simp [strictOpts]
    · simp only [processRelations, hlen]
  · intro hpres hk
    simp only [knownRelationTypes, List.mem_cons, List.not_mem_nil, or_false,
      not_or] at hk
    obtain ⟨h1, h2, h3, h4⟩ := hk
    cases hm : objGet reg rel.target with
    | none => rw [hm] at hpres; simp at hpres
    | some m =>
      have hlen : processRelation {} reg src rel = (reg, none) := by
        unfold processRelation
        rw [hm]
        dsimp only
        rw [if_neg h1, if_neg h2, if_neg h3, if_neg h4]
        simp [ConversionOptions.strictValidation]
      refine ⟨?_, hlen, ?_⟩
      · unfold processRelation
        rw [hm]
        dsimp only
        rw [if_neg h1, if_neg h2, if_neg h3, if_neg h4]
        simp [strictOpts]
      · simp only [processRelations, hlen]

/-- C8, witness: both cases at concrete inputs — a missing target and an
unknown relation type string. -/
theorem lenient_skips_strict_throws_witness :
    ((processRelation strictOpts aReg "a" relMissingTarget).2 =
        some ("Target model " ++ relMissingTarget.target ++ " not found in registry") ∧
      processRelation {} aReg "a" relMissingTarget = (aReg, none) ∧
      processRelations {} aReg "a" [relMissingTarget] =
        processRelations {} aReg "a" []) ∧
    ((processRelation strictOpts aReg "a" relUnknownType).2 =
        some ("Unknown relation type: " ++ relUnknownType.type) ∧
      processRelation {} aReg "a" relUnknownType = (aReg, none) ∧
      processRelations {} aReg "a" [relUnknownType] =
        processRelations {} aReg "a" []) :=
  ⟨(lenient_skips_strict_throws aReg "a" relMissingTarget []).1 (by decide),
   (lenient_skips_strict_throws aReg "a" relUnknownType []).2 (by decide) (by decide)⟩

/-! ## Claim C9 -/

/-- C9: when `establishRelations` raises during its relation-attachment
phase (its first phase registered a model per schema without error, and
the call as a whole errored), every registered model is still present in
the registry afterwards — registration is not rolled back. -/
theorem establish_error_keeps_models (opts : ConversionOptions)
    (reg0 : ModelRegistry) (schemas : List TableSchema)
    (hphase1 : (registerModels opts reg0 schemas).2 = none)
    (_herr : ((establishRelations opts reg0 schemas).2).isSome = true) :
    ∀ s ∈ schemas,
      (objGet (establishRelations opts reg0 schemas).1 s.table_name).isSome = true := by
  intro s hs
  unfold establishRelations
  cases hrm : registerModels opts reg0 schemas with
  | mk reg1 err =>
    have he : err = none := by rw [hrm] at hphase1; exact hphase1
    subst he
    dsimp only
    rw [relatePhase_presence]
    have hx := registerModels_mem opts schemas reg0 hphase1 s hs
    rw [hrm] at hx
    exact hx

/-- C9, witness: a lenient batch whose attachment phase throws (a
self-`belongsToMany` without `through`) still leaves the model `a`
registered. -/
theorem establish_error_keeps_models_witness :
    (objGet (establishRelations {} [] btmNoThroughSchemas).1 "a").isSome = true :=
  establish_error_keeps_models {} [] btmNoThroughSchemas (by decide) (by decide)
    { table_name := "a", columns := [intCol "id"]
      relations := some [ { type := "belongsToMany", target := "a" } ] }
    (by decide)

/-! ## Claim C10 -/

/-- C10: a relation whose type string is outside the four known kinds but
whose target table exists in the batch and whose given target key exists
as a column there contributes no error to `validateRelations` (the
foreign-key checks dispatch on the known kinds only, so they do not fire
either); the unknown type is only caught at establishment time, where the
strict-mode attachment step reports it. -/
theorem unknown_type_validates_clean (schemas : List TableSchema)
    (schema : TableSchema) (i : Nat) (rel : TableRelation) (ts : TableSchema)
    (hk : rel.type ∉ knownRelationTypes)
    (hts : findTable schemas rel.target = some ts)
    (htk : strTruthy rel.targetKey = true →
      (findColumn (some ts) (rel.targetKey.getD "")).isSome = true) :
    relationErrors schemas schema i rel = [] ∧
    (∀ opts reg src, (objGet reg rel.target).isSome = true →
      opts.strictValidation = true →
      (processRelation opts reg src rel).2 =
        some ("Unknown relation type: " ++ rel.type)) := by
  simp only [knownRelationTypes, List.mem_cons, List.not_mem_nil, or_false,
    not_or] at hk
  obtain ⟨h1, h2, h3, h4⟩ := hk
  constructor
  · unfold relationErrors
    rw [hts]
    have e2 : throughErrors schemas schema rel = [] := by
      unfold throughErrors
      rw [if_neg h4]
    have e3 : fkErrors schema ts rel = [] := by
      unfold fkErrors fkSchemaFor
      rw [if_neg h3, if_neg (show ¬ (rel.type = "hasOne" ∨ rel.type = "hasMany") by
        simp [h1, h2])]
      simp
    have e4 : targetKeyErrors schema ts rel = [] := by
      unfold targetKeyErrors
      by_cases htt : strTruthy rel.targetKey = true
      · have hcol := htk htt
        cases hfc : findColumn (some ts) (rel.targetKey.getD "") with
        | none => rw [hfc] at hcol; simp at hcol
        | some col =>
          rw [if_pos htt]
          simp
      · rw [if_neg htt]
    have e5 : typeMatchErrors schemas schema ts rel = [] := by
      unfold typeMatchErrors
      by_cases hft : strTruthy rel.foreignKey = true ∧ strTruthy rel.targetKey = true
      · rw [if_pos hft]
        rw [if_neg h3, if_neg (show ¬ (rel.type = "hasOne" ∨ rel.type = "hasMany") by
          simp [h1, h2]),
          if_neg (show ¬ (rel.type = "belongsToMany" ∧ strTruthy rel.through = true) by
            simp [h4])]
        simp [findColumn]
      · rw [if_neg hft]
    dsimp only
    rw [e2, e3, e4, e5]
    rfl
  · intro opts reg src hpres hstrict
    cases hm : objGet reg rel.target with
    | none => rw [hm] at hpres; simp at hpres
    | some m =>
      unfold processRelation
      rw [hm]
      dsimp only
      rw [if_neg h1, if_neg h2, if_neg h3, if_neg h4, if_pos hstrict]

/-- C10, witness: a concrete batch with an unknown relation kind whose
target and target key exist validates clean (`valid = true`), and strict
establishment reports the unknown type. -/
theorem unknown_type_validates_clean_witness :
    relationErrors unknownTypeSchemas unknownTypeSchema 0 weirdRel = [] ∧
    (validateRelations unknownTypeSchemas).1 = true ∧
    (processRelation strictOpts aReg "a" weirdRel).2 =
      some ("Unknown relation type: " ++ weirdRel.type) := by
  have h := unknown_type_validates_clean unknownTypeSchemas unknownTypeSchema 0
    weirdRel unknownTypeSchema (by decide) (by decide) (by decide)
  exact ⟨h.1, by decide, h.2 strictOpts aReg "a" (by decide) (by decide)⟩

/-! ## Claim C4: key-list and idempotence lemmas for the introspector -/

theorem objGet_isSome_iff_mem {α : Type} (l : List (String × α)) (k : String) :
    (objGet l k).isSome = true ↔ k ∈ l.map Prod.fst := by
  induction l with
  | nil => simp [objGet]
  | cons p rest ih =>
    by_cases hp : p.1 = k
    · simp [objGet, hp]
    · have hp2 : ¬ k = p.1 := fun e => hp e.symm
      simp [objGet, hp, hp2, ih]

theorem objSet_keys {α : Type} (l : List (String × α)) (k : String) (v : α) :
    (objSet l k v).map Prod.fst =
      if k ∈ l.map Prod.fst then l.map Prod.fst else l.map Prod.fst ++ [k] := by
  induction l with
  | nil => simp [objSet]
  | cons p rest ih =>
    by_cases hp : p.1 = k
    · simp [objSet, hp]
    · have hp2 : ¬ k = p.1 := fun e => hp e.symm
      simp only [objSet, if_neg hp, List.map_cons, ih]
      by_cases hm : k ∈ rest.map Prod.fst
      · simp [hm, hp2]
      · simp [hm, hp2]

theorem genModelsGo_db (ts : List (String × List (String × DBColumnDesc))) :
    ∀ sq reg, (genModelsGo ts sq reg).2.db = sq.db := by
  induction ts with
  | nil => intro sq reg; rfl
  | cons p rest ih =>
    intro sq reg
    obtain ⟨t, cols⟩ := p
    unfold genModelsGo
    cases objGet sq.models t with
    | some m => exact ih sq _
    | none => exact ih _ _

theorem genModelsGo_keys (ts : List (String × List (String × DBColumnDesc))) :
    ∀ sq sq' reg reg', reg.map Prod.fst = reg'.map Prod.fst →
      ((genModelsGo ts sq reg).1).map Prod.fst =
        ((genModelsGo ts sq' reg').1).map Prod.fst := by
  induction ts with
  | nil => intro sq sq' reg reg' h; exact h
  | cons p rest ih =>
    intro sq sq' reg reg' h
    obtain ⟨t, cols⟩ := p
    unfold genModelsGo
    cases hA : objGet sq.models t <;> cases hB : objGet sq'.models t <;>
      dsimp only <;>
      apply ih <;>
      rw [objSet_keys, objSet_keys, h]

theorem applyFkHasMany_presence (reg1 : ModelRegistry) (t : String)
    (fk : ForeignKeyRef) (k : String) :
    (objGet (applyFkHasMany reg1 t fk) k).isSome = (objGet reg1 k).isSome := by
  unfold applyFkHasMany
  cases h : objGet reg1 fk.referencedTableName with
  | none => rfl
  | some tgt1 =>
    dsimp only
    by_cases hg : (objGet tgt1.associations t).isSome = true
    · rw [if_pos hg]
    · rw [if_neg hg, regAttach_presence]

theorem applyFkHasMany_hasAssoc_mono (reg1 : ModelRegistry) (t : String)
    (fk : ForeignKeyRef) (s n : String) (h : hasAssoc reg1 s n = true) :
    hasAssoc (applyFkHasMany reg1 t fk) s n = true := by
  unfold applyFkHasMany
  cases hm : objGet reg1 fk.referencedTableName with
  | none => exact h
  | some tgt1 =>
    dsimp only
    by_cases hg : (objGet tgt1.associations t).isSome = true
    · rw [if_pos hg]; exact h
    · rw [if_neg hg]; exact regAttach_hasAssoc_mono _ _ _ _ _ _ h

theorem applyFkHasMany_establishes (reg1 : ModelRegistry) (t : String)
    (fk : ForeignKeyRef)
    (hp : (objGet reg1 fk.referencedTableName).isSome = true) :
    hasAssoc (applyFkHasMany reg1 t fk) fk.referencedTableName t = true := by
  unfold applyFkHasMany
  cases hm : objGet reg1 fk.referencedTableName with
  | none => rw [hm] at hp; simp at hp
  | some tgt1 =>
    dsimp only
    by_cases hg : (objGet tgt1.associations t).isSome = true
    · rw [if_pos hg]
      unfold hasAssoc
      rw [hm]
      exact hg
    · rw [if_neg hg]
      exact regAttach_hasAssoc_self _ _ _ _ (by rw [hm]; rfl)

theorem applyFk_presence (reg : ModelRegistry) (t : String) (fk : ForeignKeyRef)
    (k : String) :
    (objGet (applyFk reg t fk) k).isSome = (objGet reg k).isSome := by
  unfold applyFk
  cases h1 : objGet reg t with
  | none => rfl
  | some src =>
    cases h2 : objGet reg fk.referencedTableName with
    | none => rfl
    | some tgt =>
      dsimp only
      rw [applyFkHasMany_presence]
      by_cases hg : (objGet src.associations fk.referencedTableName).isSome = true
      · rw [if_pos hg]
      · rw [if_neg hg, regAttach_presence]

theorem applyFk_hasAssoc_mono (reg : ModelRegistry) (t : String)
    (fk : ForeignKeyRef) (s n : String) (h : hasAssoc reg s n = true) :
    hasAssoc (applyFk reg t fk) s n = true := by
  unfold applyFk
  cases h1 : objGet reg t with
  | none => exact h
  | some src =>
    cases h2 : objGet reg fk.referencedTableName with
    | none => exact h
    | some tgt =>
      dsimp only
      apply applyFkHasMany_hasAssoc_mono
      by_cases hg : (objGet src.associations fk.referencedTableName).isSome = true
      · rw [if_pos hg]; exact h
      · rw [if_neg hg]; exact regAttach_hasAssoc_mono _ _ _ _ _ _ h

theorem applyFk_establishes (reg : ModelRegistry) (t : String)
    (fk : ForeignKeyRef)
    (hp1 : (objGet reg t).isSome = true)
    (hp2 : (objGet reg fk.referencedTableName).isSome = true) :
    hasAssoc (applyFk reg t fk) t fk.referencedTableName = true ∧
      hasAssoc (applyFk reg t fk) fk.referencedTableName t = true := by
  unfold applyFk
  cases h1 : objGet reg t with
  | none => rw [h1] at hp1; simp at hp1
  | some src =>
    cases h2 : objGet reg fk.referencedTableName with
    | none => rw [h2] at hp2; simp at hp2
    | some tgt =>
      dsimp only
      have hbt : hasAssoc
          (if (objGet src.associations fk.referencedTableName).isSome = true then reg
           else regAttach reg t fk.referencedTableName
            { kind := "belongsTo"
              target := fk.referencedTableName
              foreignKey := some fk.columnName
              targetKey := some fk.referencedColumnName })
          t fk.referencedTableName = true := by
        by_cases hg : (objGet src.associations fk.referencedTableName).isSome = true
        · rw [if_pos hg]
          unfold hasAssoc
          rw [h1]
          exact hg
        · rw [if_neg hg]
          exact regAttach_hasAssoc_self _ _ _ _ hp1
      constructor
      · exact applyFkHasMany_hasAssoc_mono _ _ _ _ _ hbt
      · apply applyFkHasMany_establishes
        by_cases hg : (objGet src.associations fk.referencedTableName).isSome = true
        · rw [if_pos hg]; exact hp2
        · rw [if_neg hg, regAttach_presence]; exact hp2

/-- A foreign key already handled in a registry: when both its endpoint
models are registered, both guarded associations are present. -/
def fkDone (reg : ModelRegistry) (t : String) (fk : ForeignKeyRef) : Prop :=
  ((objGet reg t).isSome = true ∧ (objGet reg fk.referencedTableName).isSome = true) →
    (hasAssoc reg t fk.referencedTableName = true ∧
     hasAssoc reg fk.referencedTableName t = true)

theorem applyFk_id_of_fkDone (reg : ModelRegistry) (t : String)
    (fk : ForeignKeyRef) (h : fkDone reg t fk) : applyFk reg t fk = reg := by
  unfold applyFk
  cases h1 : objGet reg t with
  | none => rfl
  | some src =>
    cases h2 : objGet reg fk.referencedTableName with
    | none => rfl
    | some tgt =>
      obtain ⟨ha1, ha2⟩ := h ⟨by rw [h1]; rfl, by rw [h2]; rfl⟩
      dsimp only
      unfold hasAssoc at ha1 ha2
      rw [h1] at ha1
      rw [h2] at ha2
      rw [if_pos ha1]
      unfold applyFkHasMany
      rw [h2]
      dsimp only
      rw [if_pos ha2]

theorem fkDone_mono (reg reg' : ModelRegistry) (t : String) (fk : ForeignKeyRef)
    (hpres : ∀ k, (objGet reg' k).isSome = (objGet reg k).isSome)
    (hmono : ∀ s n, hasAssoc reg s n = true → hasAssoc reg' s n = true)
    (h : fkDone reg t fk) : fkDone reg' t fk := by
  intro ⟨hp1, hp2⟩
  rw [hpres] at hp1 hp2
  obtain ⟨ha1, ha2⟩ := h ⟨hp1, hp2⟩
  exact ⟨hmono _ _ ha1, hmono _ _ ha2⟩

theorem applyFks_presence (t : String) (fks : List ForeignKeyRef) :
    ∀ reg k, (objGet (applyFks reg t fks) k).isSome = (objGet reg k).isSome := by
  induction fks with
  | nil => intro reg k; rfl
  | cons fk rest ih =>
    intro reg k
    unfold applyFks
    rw [ih, applyFk_presence]

theorem applyFks_hasAssoc_mono (t : String) (fks : List ForeignKeyRef) :
    ∀ reg s n, hasAssoc reg s n = true → hasAssoc (applyFks reg t fks) s n = true := by
  induction fks with
  | nil => intro reg s n h; exact h
  | cons fk rest ih =>
    intro reg s n h
    unfold applyFks
    exact ih _ s n (applyFk_hasAssoc_mono reg t fk s n h)

theorem applyFks_done (t : String) (fks : List ForeignKeyRef) :
    ∀ reg, ∀ fk ∈ fks, fkDone (applyFks reg t fks) t fk := by
  induction fks with
  | nil => intro reg fk h; simp at h
  | cons fk0 rest ih =>
    intro reg fk hfk
    unfold applyFks
    rcases List.mem_cons.mp hfk with he | hm
    · subst he
      intro ⟨hp1, hp2⟩
      rw [applyFks_presence, applyFk_presence] at hp1 hp2
      obtain ⟨ha1, ha2⟩ := applyFk_establishes reg t fk hp1 hp2
      exact ⟨applyFks_hasAssoc_mono t rest _ _ _ ha1,
             applyFks_hasAssoc_mono t rest _ _ _ ha2⟩
    · exact ih _ fk hm

theorem applyFks_id (t : String) (fks : List ForeignKeyRef) :
    ∀ reg, (∀ fk ∈ fks, fkDone reg t fk) → applyFks reg t fks = reg := by
  induction fks with
  | nil => intro reg _; rfl
  | cons fk0 rest ih =>
    intro reg h
    unfold applyFks
    rw [applyFk_id_of_fkDone reg t fk0 (h fk0 (List.mem_cons_self fk0 rest))]
    exact ih reg (fun fk hfk => h fk (List.mem_cons_of_mem fk0 hfk))

theorem autoAssocTable_presence (db : Database) (t : String) (reg : ModelRegistry)
    (k : String) :
    (objGet (autoAssocTable db reg t) k).isSome = (objGet reg k).isSome := by
  unfold autoAssocTable
  cases getFks db t with
  | none => rfl
  | some fks => exact applyFks_presence t fks reg k

theorem autoAssocTable_hasAssoc_mono (db : Database) (t : String)
    (reg : ModelRegistry) (s n : String) (h : hasAssoc reg s n = true) :
    hasAssoc (autoAssocTable db reg t) s n = true := by
  unfold autoAssocTable
  cases getFks db t with
  | none => exact h
  | some fks => exact applyFks_hasAssoc_mono t fks reg s n h

theorem autoAssocTables_presence (db : Database) (ts : List String) :
    ∀ reg k, (objGet (autoAssocTables db reg ts) k).isSome = (objGet reg k).isSome := by
  induction ts with
  | nil => intro reg k; rfl
  | cons t rest ih =>
    intro reg k
    unfold autoAssocTables
    rw [ih, autoAssocTable_presence]

theorem autoAssocTables_hasAssoc_mono (db : Database) (ts : List String) :
    ∀ reg s n, hasAssoc reg s n = true →
      hasAssoc (autoAssocTables db reg ts) s n = true := by
  induction ts with
  | nil => intro reg s n h; exact h
  | cons t rest ih =>
    intro reg s n h
    unfold autoAssocTables
    exact ih _ s n (autoAssocTable_hasAssoc_mono db t reg s n h)

theorem autoAssocTable_done (db : Database) (t : String) (reg : ModelRegistry)
    (fks : List ForeignKeyRef) (hfks : getFks db t = some fks) :
    ∀ fk ∈ fks, fkDone (autoAssocTable db reg t) t fk := by
  intro fk hfk
  unfold autoAssocTable
  rw [hfks]
  exact applyFks_done t fks reg fk hfk

theorem autoAssocTables_done (db : Database) (ts : List String) :
    ∀ reg t, t ∈ ts → ∀ fks, getFks db t = some fks → ∀ fk ∈ fks,
      fkDone (autoAssocTables db reg ts) t fk := by
  induction ts with
  | nil => intro reg t ht; simp at ht
  | cons t0 rest ih =>
    intro reg t ht fks hfks fk hfk
    unfold autoAssocTables
    rcases List.mem_cons.mp ht with he | hm
    · subst he
      refine fkDone_mono _ _ _ _ ?_ ?_
        (autoAssocTable_done db t reg fks hfks fk hfk)
      · intro k; rw [autoAssocTables_presence]
      · intro s n h; exact autoAssocTables_hasAssoc_mono db rest _ s n h
    · exact ih _ t hm fks hfks fk hfk

theorem autoAssocTables_id (db : Database) (ts : List String) :
    ∀ reg, (∀ t ∈ ts, ∀ fks, getFks db t = some fks →
        ∀ fk ∈ fks, fkDone reg t fk) →
      autoAssocTables db reg ts = reg := by
  induction ts with
  | nil => intro reg _; rfl
  | cons t0 rest ih =>
    intro reg h
    unfold autoAssocTables
    have htbl : autoAssocTable db reg t0 = reg := by
      unfold autoAssocTable
      cases hfks : getFks db t0 with
      | none => rfl
      | some fks =>
        exact applyFks_id t0 fks reg
          (fun fk hfk => h t0 (List.mem_cons_self t0 rest) fks hfks fk hfk)
    rw [htbl]
    exact ih reg (fun t ht => h t (List.mem_cons_of_mem t0 ht))

/-- A second `autoAssociateFromForeignKeys` pass over any registry already
processed once is the identity: every guard finds the association the
first pass attached (or found). -/
theorem autoAssociate_idempotent (db : Database) (reg : ModelRegistry) :
    autoAssociateFromForeignKeys db (autoAssociateFromForeignKeys db reg) =
      autoAssociateFromForeignKeys db reg := by
  unfold autoAssociateFromForeignKeys
  apply autoAssocTables_id
  intro t ht fks hfks fk hfk
  exact autoAssocTables_done db (db.tables.map Prod.fst) reg t ht fks hfks fk hfk

/-- C4: running the model-discovery pass (`generateModelsFromDatabase`)
twice against the same unchanged database yields registries with the same
table-name key list — the second run finds every table already in
`sequelize.models` and reuses it — and a second `autoAssociate` pass over
the discovered registry attaches nothing: for every foreign key both
guarded associations already exist after the first pass, so the second
pass is the identity (no duplicates). -/
theorem discovery_autoAssociate_idempotent (sq : SequelizeInst) :
    ((generateModelsFromDatabase (generateModelsFromDatabase sq).2).1).map Prod.fst =
      ((generateModelsFromDatabase sq).1).map Prod.fst ∧
    autoAssociateFromForeignKeys sq.db
        (autoAssociateFromForeignKeys sq.db (generateModelsFromDatabase sq).1) =
      autoAssociateFromForeignKeys sq.db (generateModelsFromDatabase sq).1 := by
  constructor
  · unfold generateModelsFromDatabase
    rw [genModelsGo_db sq.db.tables sq []]
    exact genModelsGo_keys sq.db.tables _ sq [] [] rfl
  · exact autoAssociate_idempotent sq.db (generateModelsFromDatabase sq).1

end DBB
